import Mathlib

/-!
Verification of the `HistoricalLocationWeather` pipeline (src/function.py).

The development shallowly embeds the program:

* Gregorian calendar dates (`Date`) with the month arithmetic used by
  `pd.date_range(..., freq='MS')` / `freq='M'`, and the month chunker of
  `_retrieve_this_city` (`monthChunks`).
* Python runtime values (`PyVal`) with Python's cross-type numeric `==`,
  used by `__init__`'s `isinstance` checks and `frequency not in [1,3,6,12]`
  membership test (`init`).
* A pandas `DataFrame` model (`DF`): an ordered list of named columns of
  optional (NaN-able) string cells plus an explicit row count (the index
  length; `pd.DataFrame([{}])` has one row and no columns).  `_extract_data`
  is embedded column-operation by column-operation (`flattenDay`,
  `extractData`), `_retrieve_this_city`'s per-chunk loop as `runChunks`
  (parametrised by the list of per-chunk fetch outcomes, one per month
  chunk, since the network is outside the model), and `retrieve_hist_data`
  as `retrieveHistData`.

Exceptions are embedded as `Except PyErr`; messages printed to stdout are
accumulated as `Diag` values alongside the result, so that "a diagnostic was
printed before the raise" is statable.
-/

/-! ## Calendar dates -/

/-- A calendar date `y-m-d` (month `1..12`, day `1..daysInMonth`). -/
structure Date where
  y : Nat
  m : Nat
  d : Nat
deriving DecidableEq

/-- Gregorian leap-year rule (as used by `pandas`/`datetime`). -/
def isLeap (y : Nat) : Bool := y % 4 == 0 && (y % 100 != 0 || y % 400 == 0)

/-- Number of days of month `m` of year `y`. -/
def daysInMonth (y m : Nat) : Nat :=
  if m = 2 then (if isLeap y then 29 else 28)
  else if m = 4 ∨ m = 6 ∨ m = 9 ∨ m = 11 then 30 else 31

/-- Structural validity of a date (month and day in range). -/
def validDate (dt : Date) : Bool :=
  1 ≤ dt.m && dt.m ≤ 12 && 1 ≤ dt.d && dt.d ≤ daysInMonth dt.y dt.m

/-- Injective key whose order coincides with chronological order on valid
dates (month `≤ 12 < 13`, day `≤ 31 < 32`). -/
def dateKey (dt : Date) : Nat := (dt.y * 13 + dt.m) * 32 + dt.d

/-- Chronological `≤` on dates, as `pandas` timestamp comparison. -/
def dateLE (a b : Date) : Bool := decide (dateKey a ≤ dateKey b)

/-- Chronological `<` on dates, as the `datetime` comparison in `__init__`. -/
def dateLT (a b : Date) : Bool := decide (dateKey a < dateKey b)

/-- Zero-based index of a date's month on the time line. -/
def monthIdx (dt : Date) : Nat := dt.y * 12 + (dt.m - 1)

/-- First day of the month with index `i`. -/
def firstOfMonth (i : Nat) : Date := ⟨i / 12, i % 12 + 1, 1⟩

/-- Last day of the month with index `i`. -/
def lastOfMonth (i : Nat) : Date :=
  ⟨i / 12, i % 12 + 1, daysInMonth (i / 12) (i % 12 + 1)⟩

/-- The day after `dt` on the calendar. -/
def succDate (dt : Date) : Date :=
  if dt.d < daysInMonth dt.y dt.m then ⟨dt.y, dt.m, dt.d + 1⟩
  else if dt.m < 12 then ⟨dt.y, dt.m + 1, 1⟩
  else ⟨dt.y + 1, 1, 1⟩

/-! ## The month chunker of `_retrieve_this_city`

`pd.date_range(start, end, freq='MS')` lists the month-start dates lying in
`[start, end]` (inclusive), `freq='M'` the month-end dates.  Both are
embedded by enumerating every month index touching the interval and keeping
the generated date when it lies in the interval. -/

/-- Number of calendar months overlapped by `[s, e]` (when `s ≤ e`). -/
def monthsSpan (s e : Date) : Nat := monthIdx e + 1 - monthIdx s

/-- Embedding of `pd.date_range(start_date, end_date, freq='MS')`. -/
def dateRangeMS (s e : Date) : List Date :=
  ((List.range' (monthIdx s) (monthsSpan s e)).map firstOfMonth).filter
    (fun dt => dateLE s dt && dateLE dt e)

/-- Embedding of `pd.date_range(start_date, end_date, freq='M')`. -/
def dateRangeM (s e : Date) : List Date :=
  ((List.range' (monthIdx s) (monthsSpan s e)).map lastOfMonth).filter
    (fun dt => dateLE s dt && dateLE dt e)

/-- The `(start_d, end_d)` pairs iterated by `_retrieve_this_city`:
`zip([start] + date_range(MS), date_range(M) + [end])` (`zip` truncates to
the shorter list, as Python's `zip`). -/
def monthChunks (s e : Date) : List (Date × Date) :=
  List.zip (s :: dateRangeMS s e) (dateRangeM s e ++ [e])

/-! ## Python values and `__init__` -/

/-- Python runtime values that can reach the constructor's checks.  Python
floats are modelled by the rationals they denote (`3.0` is exact). -/
inductive PyVal where
  | vstr : String → PyVal
  | vint : Int → PyVal
  | vbool : Bool → PyVal
  | vfloat : Rat → PyVal
  | vnone : PyVal
deriving DecidableEq

/-- Python `isinstance(x, str)`. -/
def PyVal.isStr : PyVal → Bool
  | .vstr _ => true
  | _ => false

/-- Numeric interpretation used by Python's cross-type `==`
(`True == 1`, `3.0 == 3`). -/
def PyVal.toNum : PyVal → Option Rat
  | .vint n => some (n : Rat)
  | .vbool b => some (if b then 1 else 0)
  | .vfloat q => some q
  | _ => none

/-- Python `==` on the values we model. -/
def pyEq (a b : PyVal) : Bool :=
  match a.toNum, b.toNum with
  | some x, some y => x == y
  | _, _ =>
    match a, b with
    | .vstr s, .vstr t => s == t
    | .vnone, .vnone => true
    | _, _ => false

/-- Python `frequency in [1, 3, 6, 12]` (membership by `==`). -/
def freqOk (f : PyVal) : Bool :=
  [(1 : Int), 3, 6, 12].any (fun n => pyEq f (.vint n))

/-- Errors raised by the program (Python exception classes). -/
inductive PyErr where
  | typeError (msg : String)
  | valueError (msg : String)
  | keyError (k : String)
  | urlError (msg : String)
  | jsonError (msg : String)
deriving DecidableEq

/-- Digits-only string to number, as `strptime` field parsing. -/
def digitsToNat (cs : List Char) : Option Nat :=
  if cs ≠ [] ∧ cs.all Char.isDigit then
    some (cs.foldl (fun a c => a * 10 + (c.toNat - 48)) 0)
  else none

/-- Split a character list at every dash, as Python `s.split('-')` /
`splitOn "-"` (always returns at least one, possibly empty, group). -/
def splitDashes : List Char → List (List Char)
  | [] => [[]]
  | c :: rest =>
    match splitDashes rest with
    | [] => [[]]
    | g :: gs => if c = '-' then [] :: g :: gs else (c :: g) :: gs

/-- Embedding of `datetime.strptime(s, '%Y-%m-%d')`: three dash-separated
digit fields (year up to 4 digits, month/day up to 2, each possibly without
leading zeros), which must denote a real calendar date with year `≥ 1`. -/
def parseDateStr (s : String) : Option Date :=
  match splitDashes s.data with
  | [ys, ms, dcs] =>
    match digitsToNat ys, digitsToNat ms, digitsToNat dcs with
    | some yv, some mv, some dv =>
      if ys.length ≤ 4 ∧ ms.length ≤ 2 ∧ dcs.length ≤ 2 ∧ 1 ≤ yv ∧ yv ≤ 9999
          ∧ validDate ⟨yv, mv, dv⟩ then
        some ⟨yv, mv, dv⟩
      else none
    | _, _, _ => none
  | _ => none

/-- The state stored on `self` by a successful `__init__`. -/
structure InitState where
  api_key : String
  city : String
  start_date : String
  end_date : String
  startD : Date
  endD : Date
  frequency : PyVal
  csvDirectory : Option String
deriving DecidableEq

/-- Embedding of `HistoricalLocationWeather.__init__`.  The checks run in
source order: `isinstance` checks, `strptime` on both dates, the date-order
check, the frequency membership check.  The constructor performs no network
activity: the fetch oracle is only consumed by `runChunks` below, so every
validation failure here occurs before any fetch. -/
def init (api_key city start_date end_date frequency : PyVal)
    (csvDirectory : Option String) : Except PyErr InitState :=
  match api_key with
  | .vstr ak =>
    match city with
    | .vstr ct =>
      match start_date, end_date with
      | .vstr sd, .vstr ed =>
        match parseDateStr sd with
        | none => .error (.valueError "strptime: start_date")
        | some s =>
          match parseDateStr ed with
          | none => .error (.valueError "strptime: end_date")
          | some e =>
            if dateLT s e then
              if freqOk frequency then
                .ok ⟨ak, ct, sd, ed, s, e, frequency, csvDirectory⟩
              else .error (.valueError "Frequency must be one of 1, 3, 6, or 12.")
            else .error (.valueError "End date must be after start date.")
      | _, _ => .error (.typeError "Dates must be strings in YYYY-mm-dd format.")
    | _ => .error (.typeError "City must be a string.")
  | _ => .error (.typeError "API key must be a string.")

/-- Whether a constructor outcome is a successful construction. -/
def initOk (r : Except PyErr InitState) : Bool :=
  match r with
  | .ok _ => true
  | .error _ => false

/-! ## Time-code normalization -/

/-- Python `str.zfill(n)`: left-pad with `'0'` to length `n`, keeping a
leading sign character in front of the padding. -/
def zfillChars (n : Nat) : List Char → List Char
  | [] => List.replicate n '0'
  | c :: rest =>
    if n ≤ (c :: rest).length then c :: rest
    else if c = '+' ∨ c = '-' then
      c :: (List.replicate (n - (c :: rest).length) '0' ++ rest)
    else List.replicate (n - (c :: rest).length) '0' ++ (c :: rest)

/-- Embedding of `day_df['time'].str.zfill(4).str[:2]` on one cell. -/
def normTime (s : String) : String := ⟨(zfillChars 4 s.data).take 2⟩

example : normTime "0" = "00" := by decide
example : normTime "300" = "03" := by decide
example : normTime "1200" = "12" := by decide
example : normTime "2300" = "23" := by decide
example : monthChunks ⟨2020, 1, 15⟩ ⟨2020, 3, 10⟩ =
    [(⟨2020, 1, 15⟩, ⟨2020, 1, 31⟩), (⟨2020, 2, 1⟩, ⟨2020, 2, 29⟩),
     (⟨2020, 3, 1⟩, ⟨2020, 3, 10⟩)] := by decide
example : monthChunks ⟨2020, 1, 1⟩ ⟨2020, 2, 15⟩ =
    [(⟨2020, 1, 1⟩, ⟨2020, 1, 31⟩), (⟨2020, 1, 1⟩, ⟨2020, 2, 15⟩)] := by decide

/-! ## Facts about the calendar -/

theorem daysInMonth_bounds (y m : Nat) :
    28 ≤ daysInMonth y m ∧ daysInMonth y m ≤ 31 := by
  unfold daysInMonth
  split
  · split <;> omega
  · split <;> omega

theorem validDate_iff (dt : Date) : validDate dt = true ↔
    1 ≤ dt.m ∧ dt.m ≤ 12 ∧ 1 ≤ dt.d ∧ dt.d ≤ daysInMonth dt.y dt.m := by
  simp [validDate, and_assoc]

theorem monthIdx_firstOfMonth (i : Nat) : monthIdx (firstOfMonth i) = i := by
  simp only [monthIdx, firstOfMonth]
  omega

theorem monthIdx_lastOfMonth (i : Nat) : monthIdx (lastOfMonth i) = i := by
  simp only [monthIdx, lastOfMonth]
  omega

theorem validDate_firstOfMonth (i : Nat) : validDate (firstOfMonth i) = true := by
  have h := daysInMonth_bounds (i / 12) (i % 12 + 1)
  rw [validDate_iff]
  simp only [firstOfMonth]
  omega

theorem validDate_lastOfMonth (i : Nat) : validDate (lastOfMonth i) = true := by
  have h := daysInMonth_bounds (i / 12) (i % 12 + 1)
  rw [validDate_iff]
  simp only [lastOfMonth]
  omega

theorem dateKey_lt_of_monthIdx_lt {a b : Date} (ha : validDate a = true)
    (hb : validDate b = true) (h : monthIdx a < monthIdx b) :
    dateKey a < dateKey b := by
  rw [validDate_iff] at ha hb
  have h1 := daysInMonth_bounds a.y a.m
  have h2 := daysInMonth_bounds b.y b.m
  simp only [dateKey, monthIdx] at *
  omega

theorem monthIdx_le_of_dateKey_le {a b : Date} (ha : validDate a = true)
    (hb : validDate b = true) (h : dateKey a ≤ dateKey b) :
    monthIdx a ≤ monthIdx b := by
  by_contra hc
  push_neg at hc
  exact absurd (dateKey_lt_of_monthIdx_lt hb ha hc) (by omega)

theorem firstOfMonth_monthIdx {s : Date} (hs : validDate s = true) :
    firstOfMonth (monthIdx s) = ⟨s.y, s.m, 1⟩ := by
  rw [validDate_iff] at hs
  simp only [firstOfMonth, monthIdx]
  rw [Date.mk.injEq]
  refine ⟨?_, ?_, rfl⟩ <;> omega

theorem lastOfMonth_monthIdx {s : Date} (hs : validDate s = true) :
    lastOfMonth (monthIdx s) = ⟨s.y, s.m, daysInMonth s.y s.m⟩ := by
  rw [validDate_iff] at hs
  have hy : monthIdx s / 12 = s.y := by simp only [monthIdx]; omega
  have hm : monthIdx s % 12 + 1 = s.m := by simp only [monthIdx]; omega
  simp only [lastOfMonth, hy, hm]

theorem succDate_lastOfMonth (i : Nat) :
    succDate (lastOfMonth i) = firstOfMonth (i + 1) := by
  have h := daysInMonth_bounds (i / 12) (i % 12 + 1)
  simp only [succDate, lastOfMonth, firstOfMonth]
  rw [if_neg (by omega)]
  by_cases hm : i % 12 + 1 < 12
  · rw [if_pos hm, Date.mk.injEq]
    refine ⟨?_, ?_, rfl⟩ <;> omega
  · rw [if_neg hm, Date.mk.injEq]
    refine ⟨?_, ?_, rfl⟩ <;> omega

/-! ## Closed form of the month chunker -/

theorem dateRangeMS_eq {s e : Date} (hs : validDate s = true)
    (he : validDate e = true) (hle : dateKey s ≤ dateKey e) (hd1 : s.d ≠ 1) :
    dateRangeMS s e
      = (List.range' (monthIdx s + 1) (monthIdx e - monthIdx s)).map firstOfMonth := by
  have hmi : monthIdx s ≤ monthIdx e := monthIdx_le_of_dateKey_le hs he hle
  unfold dateRangeMS monthsSpan
  rw [show monthIdx e + 1 - monthIdx s = (monthIdx e - monthIdx s) + 1 by omega]
  rw [List.range'_succ, List.map_cons, List.filter_cons]
  have hfom := firstOfMonth_monthIdx hs
  have hsv := hs
  rw [validDate_iff] at hsv
  have hlt1 : ¬ (dateKey s ≤ dateKey (⟨s.y, s.m, 1⟩ : Date)) := by
    simp only [dateKey]
    omega
  have hhead : (dateLE s (firstOfMonth (monthIdx s))
      && dateLE (firstOfMonth (monthIdx s)) e) = false := by
    rw [hfom]
    simp [dateLE, hlt1]
  rw [hhead]
  simp only [Bool.false_eq_true, if_false]
  apply List.filter_eq_self.mpr
  intro dt hdt
  obtain ⟨i, hi, rfl⟩ := List.mem_map.1 hdt
  rw [List.mem_range'_1] at hi
  have hv := validDate_firstOfMonth i
  have h1 : dateKey s < dateKey (firstOfMonth i) :=
    dateKey_lt_of_monthIdx_lt hs hv (by rw [monthIdx_firstOfMonth]; omega)
  have h2 : dateKey (firstOfMonth i) ≤ dateKey e := by
    rcases Nat.lt_or_ge i (monthIdx e) with hcase | hcase
    · exact (dateKey_lt_of_monthIdx_lt hv he (by rw [monthIdx_firstOfMonth]; omega)).le
    · have hieq : i = monthIdx e := by omega
      rw [hieq, firstOfMonth_monthIdx he]
      rw [validDate_iff] at he
      simp only [dateKey]
      omega
  simp only [dateLE, Bool.and_eq_true, decide_eq_true_eq]
  exact ⟨h1.le, h2⟩

theorem dateRangeM_eq {s e : Date} (hs : validDate s = true)
    (he : validDate e = true) (hle : dateKey s ≤ dateKey e) :
    dateRangeM s e
      = (List.range' (monthIdx s) (monthIdx e - monthIdx s)).map lastOfMonth
        ++ (if e.d = daysInMonth e.y e.m then [e] else []) := by
  have hmi : monthIdx s ≤ monthIdx e := monthIdx_le_of_dateKey_le hs he hle
  unfold dateRangeM monthsSpan
  rw [show monthIdx e + 1 - monthIdx s = (monthIdx e - monthIdx s) + 1 by omega]
  rw [List.range'_concat, List.map_append, List.filter_append]
  congr 1
  · apply List.filter_eq_self.mpr
    intro dt hdt
    obtain ⟨i, hi, rfl⟩ := List.mem_map.1 hdt
    rw [List.mem_range'_1] at hi
    have hv := validDate_lastOfMonth i
    have h1 : dateKey s ≤ dateKey (lastOfMonth i) := by
      rcases Nat.eq_or_lt_of_le hi.1 with heq | hltc
      · rw [← heq, lastOfMonth_monthIdx hs]
        rw [validDate_iff] at hs
        simp only [dateKey]
        omega
      · exact (dateKey_lt_of_monthIdx_lt hs hv (by rw [monthIdx_lastOfMonth]; omega)).le
    have h2 : dateKey (lastOfMonth i) ≤ dateKey e :=
      (dateKey_lt_of_monthIdx_lt hv he (by rw [monthIdx_lastOfMonth]; omega)).le
    simp only [dateLE, Bool.and_eq_true, decide_eq_true_eq]
    exact ⟨h1, h2⟩
  · rw [show monthIdx s + 1 * (monthIdx e - monthIdx s) = monthIdx e by omega]
    rw [List.map_singleton, lastOfMonth_monthIdx he]
    by_cases hend : e.d = daysInMonth e.y e.m
    · rw [if_pos hend]
      have hee : (⟨e.y, e.m, daysInMonth e.y e.m⟩ : Date) = e := by rw [← hend]
      rw [hee]
      apply List.filter_eq_self.mpr
      intro a ha
      rw [List.mem_singleton] at ha
      subst ha
      simp [dateLE, hle]
    · rw [if_neg hend]
      have hgt : ¬ (dateKey (⟨e.y, e.m, daysInMonth e.y e.m⟩ : Date) ≤ dateKey e) := by
        rw [validDate_iff] at he
        simp only [dateKey]
        omega
      simp [List.filter_cons, dateLE, hgt]

/-- The middle, full-month chunks `(first, last)` for `n` months starting at
month index `i`. -/
def midMonths (i n : Nat) : List (Date × Date) :=
  (List.range' i n).map (fun j => (firstOfMonth j, lastOfMonth j))

theorem midMonths_succ (i n : Nat) :
    midMonths i (n + 1) = (firstOfMonth i, lastOfMonth i) :: midMonths (i + 1) n := by
  simp [midMonths, List.range'_succ]

theorem zipMonths (m : Nat) : ∀ (i : Nat) (r : Date) (rs : List Date),
    List.zip ((List.range' i (m + 1)).map firstOfMonth)
      ((List.range' i m).map lastOfMonth ++ r :: rs)
    = midMonths i m ++ [(firstOfMonth (i + m), r)] := by
  induction m with
  | zero =>
    intro i r rs
    simp [midMonths, List.range'_succ]
  | succ m ih =>
    intro i r rs
    rw [List.range'_succ i (m + 1), List.range'_succ i m]
    simp only [List.map_cons, List.cons_append, List.zip_cons_cons]
    rw [ih (i + 1) r rs, midMonths_succ]
    rw [show i + 1 + m = i + (m + 1) by omega]
    simp

/-- Closed form of `monthChunks` (indexed by the number of month steps) for
a range whose start is not the first day of a month. -/
def chunksCFAux (s e : Date) : Nat → List (Date × Date)
  | 0 => [(s, e)]
  | Nat.succ n =>
    (s, lastOfMonth (monthIdx s))
      :: (midMonths (monthIdx s + 1) n ++ [(firstOfMonth (monthIdx e), e)])

/-- Closed form of `monthChunks` for a range whose start is not the first
day of a month. -/
def chunksCF (s e : Date) : List (Date × Date) :=
  chunksCFAux s e (monthIdx e - monthIdx s)

theorem monthChunks_eq_cf {s e : Date} (hs : validDate s = true)
    (he : validDate e = true) (hle : dateKey s ≤ dateKey e) (hd1 : s.d ≠ 1) :
    monthChunks s e = chunksCF s e := by
  have hmi : monthIdx s ≤ monthIdx e := monthIdx_le_of_dateKey_le hs he hle
  unfold monthChunks chunksCF
  rw [dateRangeMS_eq hs he hle hd1, dateRangeM_eq hs he hle]
  cases hn : monthIdx e - monthIdx s with
  | zero =>
    simp only [chunksCFAux, List.range'_zero, List.map_nil, List.nil_append]
    by_cases hend : e.d = daysInMonth e.y e.m
    · rw [if_pos hend]
      simp
    · rw [if_neg hend]
      simp
  | succ n =>
    simp only [chunksCFAux]
    rw [List.range'_succ (monthIdx s) n]
    simp only [List.map_cons, List.cons_append, List.zip_cons_cons]
    have hie : monthIdx s + 1 + n = monthIdx e := by omega
    by_cases hend : e.d = daysInMonth e.y e.m
    · rw [if_pos hend]
      rw [List.append_assoc, List.singleton_append]
      rw [zipMonths n (monthIdx s + 1) e [e], hie]
    · rw [if_neg hend]
      rw [List.append_nil]
      rw [zipMonths n (monthIdx s + 1) e [], hie]

theorem midMonths_length (i n : Nat) : (midMonths i n).length = n := by
  simp [midMonths]

theorem chain_midMonths (n : Nat) : ∀ (i : Nat) (r : Date),
    List.Chain' (fun a b => succDate a.2 = b.1)
      (midMonths i n ++ [(firstOfMonth (i + n), r)]) := by
  induction n with
  | zero =>
    intro i r
    simp [midMonths]
  | succ n ih =>
    intro i r
    rw [midMonths_succ, List.cons_append, List.chain'_cons']
    constructor
    · intro y hy
      cases n with
      | zero =>
        simp only [midMonths, List.range'_zero, List.map_nil, List.nil_append,
          List.head?_cons, Option.mem_def, Option.some.injEq] at hy
        rw [← hy]
        simp only [succDate_lastOfMonth]
      | succ k =>
        rw [midMonths_succ] at hy
        simp only [List.cons_append, List.head?_cons, Option.mem_def,
          Option.some.injEq] at hy
        rw [← hy]
        exact succDate_lastOfMonth i
    · have h := ih (i + 1) r
      rw [show i + 1 + n = i + (n + 1) by omega] at h
      exact h

theorem midMonths_map_fst (i n : Nat) :
    (midMonths i n).map (fun c => monthIdx c.1) = List.range' i n := by
  rw [midMonths, List.map_map]
  have : ((fun (c : Date × Date) => monthIdx c.1)
      ∘ (fun j => (firstOfMonth j, lastOfMonth j))) = fun j => monthIdx (firstOfMonth j) :=
    rfl
  rw [this]
  simp [monthIdx_firstOfMonth]

/-- C1 (amended): for every valid start/end pair with the start strictly
before the end and the start not the first day of a month, the chunker
produces one chunk per calendar month overlapped by the range, the first
starting at the overall start, the last ending at the overall end, each
chunk within a single month with start before end, and consecutive chunk
boundaries contiguous (no gaps, no overlaps). -/
theorem monthChunks_correct (s e : Date) (hs : validDate s = true)
    (he : validDate e = true) (hlt : dateLT s e = true) (hd1 : s.d ≠ 1) :
    (monthChunks s e).length = monthsSpan s e
    ∧ ((monthChunks s e).map Prod.fst).head? = some s
    ∧ ((monthChunks s e).map Prod.snd).getLast? = some e
    ∧ List.Chain' (fun a b => succDate a.2 = b.1) (monthChunks s e)
    ∧ (∀ c ∈ monthChunks s e, dateLE c.1 c.2 = true ∧ monthIdx c.1 = monthIdx c.2)
    ∧ (monthChunks s e).map (fun c => monthIdx c.1)
        = List.range' (monthIdx s) (monthsSpan s e) := by
  rw [dateLT, decide_eq_true_eq] at hlt
  have hmi : monthIdx s ≤ monthIdx e := monthIdx_le_of_dateKey_le hs he hlt.le
  have hspan : monthsSpan s e = (monthIdx e - monthIdx s) + 1 := by
    unfold monthsSpan
    omega
  rw [monthChunks_eq_cf hs he hlt.le hd1]
  unfold chunksCF
  cases hn : monthIdx e - monthIdx s with
  | zero =>
    simp only [chunksCFAux]
    refine ⟨by simp [hspan, hn], by simp, by simp, by simp, ?_, ?_⟩
    · intro c hc
      rw [List.mem_singleton] at hc
      subst hc
      constructor
      · show dateLE s e = true
        simp [dateLE, hlt.le]
      · show monthIdx s = monthIdx e
        omega
    · rw [hspan, hn]
      simp [List.range'_one]
  | succ n =>
    simp only [chunksCFAux]
    have hie : monthIdx s + 1 + n = monthIdx e := by omega
    refine ⟨?_, by simp, ?_, ?_, ?_, ?_⟩
    · simp [midMonths_length, hspan, hn]
    · rw [← List.cons_append, List.map_append, List.map_singleton]
      exact List.getLast?_concat _
    · rw [List.chain'_cons']
      constructor
      · intro y hy
        cases n with
        | zero =>
          simp only [midMonths, List.range'_zero, List.map_nil, List.nil_append,
            List.head?_cons, Option.mem_def, Option.some.injEq] at hy
          rw [← hy]
          simp only [succDate_lastOfMonth]
          congr 1
        | succ k =>
          rw [midMonths_succ] at hy
          simp only [List.cons_append, List.head?_cons, Option.mem_def,
            Option.some.injEq] at hy
          rw [← hy]
          exact succDate_lastOfMonth (monthIdx s)
      · have h := chain_midMonths n (monthIdx s + 1) e
        rw [hie] at h
        exact h
    · intro c hc
      rw [List.mem_cons, List.mem_append, List.mem_singleton] at hc
      rcases hc with hc | hc | hc
      · subst hc
        constructor
        · rw [lastOfMonth_monthIdx hs]
          rw [validDate_iff] at hs
          simp only [dateLE, dateKey, decide_eq_true_eq]
          omega
        · rw [monthIdx_lastOfMonth]
      · obtain ⟨j, hj, rfl⟩ := List.mem_map.1 hc
        constructor
        · have hb := daysInMonth_bounds (j / 12) (j % 12 + 1)
          simp only [dateLE, dateKey, firstOfMonth, lastOfMonth, decide_eq_true_eq]
          omega
        · simp only [monthIdx_firstOfMonth, monthIdx_lastOfMonth]
      · subst hc
        constructor
        · rw [firstOfMonth_monthIdx he]
          rw [validDate_iff] at he
          simp only [dateLE, dateKey, decide_eq_true_eq]
          omega
        · rw [monthIdx_firstOfMonth]
    · rw [← List.cons_append, List.map_append, List.map_cons, List.map_singleton]
      rw [midMonths_map_fst, monthIdx_firstOfMonth]
      rw [hspan, hn, List.range'_succ, List.range'_concat]
      rw [show monthIdx s + 1 + 1 * n = monthIdx e by omega]
      simp

/-- Witness for C1 at a concrete range: 2020-01-15 to 2020-03-10. -/
theorem monthChunks_correct_witness :
    (monthChunks ⟨2020, 1, 15⟩ ⟨2020, 3, 10⟩).length
        = monthsSpan ⟨2020, 1, 15⟩ ⟨2020, 3, 10⟩
    ∧ ((monthChunks ⟨2020, 1, 15⟩ ⟨2020, 3, 10⟩).map Prod.fst).head?
        = some ⟨2020, 1, 15⟩
    ∧ ((monthChunks ⟨2020, 1, 15⟩ ⟨2020, 3, 10⟩).map Prod.snd).getLast?
        = some ⟨2020, 3, 10⟩
    ∧ List.Chain' (fun a b => succDate a.2 = b.1)
        (monthChunks ⟨2020, 1, 15⟩ ⟨2020, 3, 10⟩)
    ∧ (∀ c ∈ monthChunks ⟨2020, 1, 15⟩ ⟨2020, 3, 10⟩,
        dateLE c.1 c.2 = true ∧ monthIdx c.1 = monthIdx c.2)
    ∧ (monthChunks ⟨2020, 1, 15⟩ ⟨2020, 3, 10⟩).map (fun c => monthIdx c.1)
        = List.range' (monthIdx ⟨2020, 1, 15⟩) (monthsSpan ⟨2020, 1, 15⟩ ⟨2020, 3, 10⟩) :=
  monthChunks_correct ⟨2020, 1, 15⟩ ⟨2020, 3, 10⟩ (by decide) (by decide)
    (by decide) (by decide)

/-- Counterexample for C1 as stated: when the start date is the first of a
month (2020-01-01 to 2020-02-15, a valid pair with start strictly before
end), the zipped chunk lists overlap: the second chunk restarts at the
overall start date, on or before the first chunk's end (an overlap, not
contiguous), and spans two calendar months. -/
theorem monthChunks_jan_first_overlaps :
    monthChunks ⟨2020, 1, 1⟩ ⟨2020, 2, 15⟩
      = [(⟨2020, 1, 1⟩, ⟨2020, 1, 31⟩), (⟨2020, 1, 1⟩, ⟨2020, 2, 15⟩)]
    ∧ validDate ⟨2020, 1, 1⟩ = true ∧ validDate ⟨2020, 2, 15⟩ = true
    ∧ dateLT ⟨2020, 1, 1⟩ ⟨2020, 2, 15⟩ = true
    ∧ dateLE ⟨2020, 1, 1⟩ ⟨2020, 1, 31⟩ = true
    ∧ succDate ⟨2020, 1, 31⟩ ≠ ⟨2020, 1, 1⟩
    ∧ monthIdx (⟨2020, 1, 1⟩ : Date) ≠ monthIdx (⟨2020, 2, 15⟩ : Date) := by
  decide

/-! ## C4: time-code normalization -/

theorem zfillChars_length (cs : List Char) :
    (zfillChars 4 cs).length = max 4 cs.length := by
  cases cs with
  | nil => simp [zfillChars]
  | cons c rest =>
    rw [zfillChars]
    split
    · simp only [List.length_cons] at *
      omega
    · split
      · simp only [List.length_cons, List.length_append, List.length_replicate] at *
        omega
      · simp only [List.length_cons, List.length_append, List.length_replicate] at *
        omega

theorem normTime_len (s : String) : (normTime s).length = 2 := by
  show ((zfillChars 4 s.data).take 2).length = 2
  have h := zfillChars_length s.data
  rw [List.length_take]
  omega

theorem normTime_digits (s : String) (h : s.data.all Char.isDigit = true) :
    (normTime s).data.all Char.isDigit = true := by
  show ((zfillChars 4 s.data).take 2).all Char.isDigit = true
  have hz : (zfillChars 4 s.data).all Char.isDigit = true := by
    cases hcs : s.data with
    | nil => decide
    | cons c rest =>
      rw [hcs] at h
      simp only [List.all_cons, Bool.and_eq_true] at h
      rw [zfillChars]
      split
      · simp [List.all_cons, h.1, h.2]
      · rw [if_neg (by rintro (rfl | rfl) <;> exact absurd h.1 (by decide))]
        rw [List.all_eq_true]
        intro x hx
        rw [List.mem_append] at hx
        rcases hx with hx | hx
        · rw [List.eq_of_mem_replicate hx]
          decide
        · rw [List.mem_cons] at hx
          rcases hx with rfl | hx
          · exact h.1
          · exact List.all_eq_true.1 h.2 x hx
  rw [List.all_eq_true] at hz ⊢
  intro x hx
  exact hz x (List.mem_of_mem_take hx)

/-- C4: `day_df['time'].str.zfill(4).str[:2]` maps every time-code string to
a two-character string by left-zero-padding to four characters and taking
the first two; the result consists of digits whenever the input does, and
the four cited codes normalize as the spec states. -/
theorem normTime_correct :
    (∀ s : String, (normTime s).length = 2)
    ∧ (∀ s : String, s.data.all Char.isDigit = true →
        (normTime s).data.all Char.isDigit = true)
    ∧ normTime "0" = "00" ∧ normTime "300" = "03"
    ∧ normTime "1200" = "12" ∧ normTime "2300" = "23" :=
  ⟨normTime_len, normTime_digits, by decide, by decide, by decide, by decide⟩

/-- Witness for C4 at the concrete code "300". -/
theorem normTime_correct_witness :
    ("300" : String).data.all Char.isDigit = true
    ∧ (normTime "300").data.all Char.isDigit = true
    ∧ (normTime "300").length = 2 :=
  ⟨by decide, normTime_correct.2.1 "300" (by decide), normTime_correct.1 "300"⟩

/-! ## C5 and C9: construction-time validation -/

/-- The construction-validity condition stated by the spec: all four of
credential, location and both dates are strings, both dates parse as
`YYYY-mm-dd`, the end date is strictly after the start date, and the
frequency passes the `in [1, 3, 6, 12]` membership test. -/
def initChecks (api_key city start_date end_date frequency : PyVal) : Bool :=
  api_key.isStr && city.isStr &&
    (match start_date, end_date with
     | .vstr sd, .vstr ed =>
       (match parseDateStr sd, parseDateStr ed with
        | some s, some e => dateLT s e && freqOk frequency
        | _, _ => false)
     | _, _ => false)

/-- C5: construction succeeds exactly when the spec's validity conditions
hold; otherwise `__init__` raises (TypeError for non-string parameters,
ValueError for unparseable or mis-ordered dates and for a frequency failing
the membership test).  The constructor is a pure function of its arguments
in this embedding — the fetch oracle is consumed only by the retrieval
loop — so every validation failure occurs before any network activity. -/
theorem init_validation (api_key city start_date end_date frequency : PyVal)
    (csvDirectory : Option String) :
    initOk (init api_key city start_date end_date frequency csvDirectory)
      = initChecks api_key city start_date end_date frequency := by
  unfold init initChecks initOk
  cases api_key <;> cases city <;> cases start_date <;> cases end_date <;>
    simp [PyVal.isStr]
  case vstr.vstr.vstr.vstr ak ct sd ed =>
    cases parseDateStr sd <;> cases parseDateStr ed <;> simp
    case some.some s e =>
      by_cases hlt : dateLT s e = true
      · rw [if_pos hlt, hlt]
        by_cases hf : freqOk frequency = true
        · rw [if_pos hf, hf]
          simp
        · rw [if_neg hf]
          simp only [Bool.true_and]
          rw [Bool.not_eq_true] at hf
          rw [hf]
      · rw [if_neg hlt]
        rw [Bool.not_eq_true] at hlt
        rw [hlt]
        simp

/-- C9: the frequency membership test `frequency not in [1, 3, 6, 12]`
compares by Python value equality, so `True` (equal to 1) and the float
`3.0` are accepted by construction, while e.g. the integer 5 is not. -/
theorem freq_membership_by_value :
    freqOk (.vbool true) = true
    ∧ freqOk (.vfloat 3) = true
    ∧ freqOk (.vint 5) = false
    ∧ initOk (init (.vstr "k") (.vstr "c") (.vstr "2020-01-01")
        (.vstr "2020-02-15") (.vbool true) none) = true
    ∧ initOk (init (.vstr "k") (.vstr "c") (.vstr "2020-01-01")
        (.vstr "2020-02-15") (.vfloat 3) none) = true := by
  refine ⟨?_, ?_, ?_, ?_, ?_⟩ <;> decide

/-! ## The pandas DataFrame model -/

/-- A JSON object with string-valued fields (one day-level, hourly or
astronomy record). -/
abbrev Rec := List (String × String)

/-- A column of NaN-able cells. -/
abbrev Col := List (Option String)

/-- A pandas DataFrame: ordered named columns (duplicate names possible, as
after `pd.concat(axis=1)`) plus the index length `nrows`
(`pd.DataFrame([{}])` has one row and no columns). -/
structure DF where
  nrows : Nat
  cols : List (String × Col)
deriving DecidableEq

/-- `pd.DataFrame()`. -/
def emptyDF : DF := ⟨0, []⟩

def DF.colNames (df : DF) : List String := df.cols.map Prod.fst

/-- Pandas `name in df.columns`. -/
def DF.hasCol (df : DF) (nm : String) : Bool := df.cols.any (fun c => c.1 == nm)

/-- Pandas `df[name]` (first column of that name); for an absent name the
all-NaN alignment column (only used where pandas aligns). -/
def DF.getCol (df : DF) (nm : String) : Col :=
  match df.cols.find? (fun c => c.1 == nm) with
  | some c => c.2
  | none => List.replicate df.nrows none

/-- Pandas `df[name] = column`: replace the named column in place, or append
it as a new last column. -/
def DF.setCol (df : DF) (nm : String) (c : Col) : DF :=
  if df.hasCol nm then
    ⟨df.nrows, df.cols.map (fun p => if p.1 == nm then (p.1, c) else p)⟩
  else ⟨df.nrows, df.cols ++ [(nm, c)]⟩

/-- Union of record keys in order of first appearance: the column order of
`pd.DataFrame(list_of_dicts)`. -/
def addKeys (acc : List String) (r : Rec) : List String :=
  r.foldl (fun a kv => if a.contains kv.1 then a else a ++ [kv.1]) acc

def unionKeys (rs : List Rec) : List String := rs.foldl addKeys []

/-- `pd.DataFrame(list_of_dicts)`: one row per record, one column per key in
order of first appearance, NaN where a record lacks the key. -/
def dfFromRecs (rs : List Rec) : DF :=
  ⟨rs.length, (unionKeys rs).map (fun k => (k, rs.map (fun r => List.lookup k r)))⟩

/-- The six day-level keys selected into `weather_main`. -/
def mainKeys : List String :=
  ["date", "maxtempC", "mintempC", "totalSnow_cm", "sunHour", "uvIndex"]

/-- One day record of the provider response: day-level scalar fields plus
the `astronomy` and `hourly` arrays (an absent key is `none`;
`day_data.get(key, default)` supplies `[{}]` for the arrays and `None` for
scalars). -/
structure DayRecord where
  scalars : Rec
  astronomy : Option (List Rec)
  hourly : Option (List Rec)
deriving DecidableEq

/-- `pd.DataFrame(weather_main, index=range(n))`: each scalar broadcast over
`n` rows (`None` for a missing key gives an all-NaN column — in particular
the `date` column always exists). -/
def mkMainDF (day : DayRecord) (n : Nat) : DF :=
  ⟨n, mainKeys.map (fun k => (k, List.replicate n (List.lookup k day.scalars)))⟩

/-- Right-pad a column with NaN to length `n` (row alignment of
`pd.concat(axis=1)` on default integer indexes). -/
def padCol (n : Nat) (c : Col) : Col := c ++ List.replicate (n - c.length) none

/-- `pd.concat(dfs, axis=1)` on default `RangeIndex`es: the row index is the
union (outer join), every column kept in order, shorter columns padded with
NaN.  With default integer indexes this never raises a `ValueError`, so the
`except ValueError: continue` branch of `_extract_data` is unreachable. -/
def concatCols (dfs : List DF) : DF :=
  ⟨(dfs.map DF.nrows).foldl max 0,
   dfs.flatMap (fun df => df.cols.map
     (fun c => (c.1, padCol ((dfs.map DF.nrows).foldl max 0) c.2)))⟩

/-- Forward-fill one column, carrying the last non-NaN value. -/
def ffillCol : Option String → Col → Col
  | _, [] => []
  | last, none :: rest => last :: ffillCol last rest
  | _, some v :: rest => some v :: ffillCol (some v) rest

/-- `df.ffill()`: forward-fill every column independently. -/
def DF.ffill (df : DF) : DF :=
  ⟨df.nrows, df.cols.map (fun c => (c.1, ffillCol none c.2))⟩

/-- `df.loc[:, ~df.columns.duplicated()]`: keep the first column of each
name. -/
def dropDupAux (seen : List String) : List (String × Col) → List (String × Col)
  | [] => []
  | c :: rest =>
    if seen.contains c.1 then dropDupAux seen rest
    else c :: dropDupAux (c.1 :: seen) rest

def dropDup (df : DF) : DF := ⟨df.nrows, dropDupAux [] df.cols⟩

/-- `df[names]`: project onto the named columns in that order; `KeyError`
(modelled as `none`) when one is absent. -/
def selectCols (df : DF) (names : List String) : Option DF :=
  if names.all (fun nm => df.hasCol nm) then
    some ⟨df.nrows, names.map (fun nm => (nm, df.getCol nm))⟩
  else none

/-- The fixed output schema `columns_needed` of `_extract_data`. -/
def columnsNeeded : List String :=
  ["date_time", "maxtempC", "mintempC", "totalSnow_cm", "sunHour", "uvIndex",
   "moon_illumination", "moonrise", "moonset", "sunrise", "sunset",
   "DewPointC", "FeelsLikeC", "HeatIndexC", "WindChillC", "WindGustKmph",
   "cloudcover", "humidity", "precipMM", "pressure", "tempC", "visibility",
   "winddirDegree", "windspeedKmph"]

/-- Is `t` a two-digit hour below 24 (so that `'YYYY-mm-dd HH'` parses as a
timestamp)? -/
def isHourStr (t : String) : Bool :=
  match t.data with
  | [a, b] => a.isDigit && b.isDigit && (a.toNat - 48) * 10 + (b.toNat - 48) < 24
  | _ => false

/-- One cell of `pd.to_datetime(df['date'] + ' ' + df['time'],
errors='coerce')`: a NaN operand propagates to NaT (pandas' masked object
arithmetic maps `NaN + str` to NaN), and a combined string that does not
parse as a timestamp coerces to NaT. -/
def mkDateTime (d t : Option String) : Option String :=
  match d, t with
  | some ds, some ts =>
    if (parseDateStr ds).isSome && isHourStr ts then some (ds ++ " " ++ ts)
    else none
  | _, _ => none

/-- Messages printed to stdout by `_extract_data`. -/
inductive Diag where
  | mismatchLengths
  | missingDateOrTime (colNames : List String)
  | noDateTimeColumn
deriving DecidableEq

/-- Outcome of `_extract_data`'s loop body for one day. -/
inductive DayOut where
  | block (df : DF)
  | skipped (d : Diag)
deriving DecidableEq

/-! ## `_extract_data` -/

def hourlyDF (day : DayRecord) : DF := dfFromRecs (day.hourly.getD [[]])

def astroDF (day : DayRecord) : DF := dfFromRecs (day.astronomy.getD [[]])

def mainDF (day : DayRecord) : DF := mkMainDF day (hourlyDF day).nrows

/-- `pd.concat([main_df, astronomy_df, hourly_df], axis=1).ffill()`. -/
def dayDF (day : DayRecord) : DF :=
  (concatCols [mainDF day, astroDF day, hourlyDF day]).ffill

/-- `day_df['time'].str.zfill(4).str[:2]` (`.str` skips NaN). -/
def timeCol (day : DayRecord) : Col :=
  ((dayDF day).getCol "time").map (Option.map normTime)

def dfWithTime (day : DayRecord) : DF := (dayDF day).setCol "time" (timeCol day)

def dateTimeCol (day : DayRecord) : Col :=
  List.zipWith mkDateTime ((dfWithTime day).getCol "date") (timeCol day)

def dfWithDT (day : DayRecord) : DF :=
  (dfWithTime day).setCol "date_time" (dateTimeCol day)

/-- Loop body of `_extract_data` for one `day_data`: normalize the time
code, build `date_time`, drop duplicate columns and project onto
`columns_needed`; skip with a printed message when the `date` or `time`
column is absent; an absent needed column is an uncaught `KeyError`. -/
def flattenDay (day : DayRecord) : Except PyErr DayOut :=
  if (dayDF day).hasCol "date" && (dayDF day).hasCol "time" then
    match selectCols (dropDup (dfWithDT day)) columnsNeeded with
    | some blk => .ok (.block blk)
    | none => .error (.keyError "columns_needed")
  else .ok (.skipped (.missingDateOrTime (dayDF day).colNames))

/-- `pd.concat([a, b], ignore_index=True)` (axis 0): columns aligned by name
(union, in order of first appearance), absent columns filled with NaN. -/
def concatRows (a b : DF) : DF :=
  ⟨a.nrows + b.nrows,
   (a.colNames ++ b.colNames.filter (fun k => ¬ a.colNames.contains k)).map
     (fun k => (k, a.getCol k ++ b.getCol k))⟩

def extractGo : List DayRecord → DF → List Diag → List Diag × Except PyErr DF
  | [], acc, dgs =>
    (dgs ++ (if acc.hasCol "date_time" then [] else [Diag.noDateTimeColumn]),
     .ok acc)
  | day :: rest, acc, dgs =>
    match flattenDay day with
    | .error e => (dgs, .error e)
    | .ok (.skipped dg) => extractGo rest acc (dgs ++ [dg])
    | .ok (.block blk) => extractGo rest (concatRows acc blk) dgs

/-- Embedding of `_extract_data`: fold the days into `monthly_data`,
printing the final missing-`date_time` diagnostic when applicable;
the pair is (printed diagnostics, result or uncaught exception). -/
def extractData (ds : List DayRecord) : List Diag × Except PyErr DF :=
  extractGo ds emptyDF []

/-! ## `_retrieve_this_city` and `retrieve_hist_data` -/

/-- Per-chunk fetch outcome: the parsed `json_data['data']['weather']` day
list, or the uncaught network / JSON-decode / key-lookup error raised while
producing it. -/
abbrev FetchResult := Except PyErr (List DayRecord)

/-- `data_this_month['city'] = self.city`. -/
def cityTag (city : String) (df : DF) : DF :=
  df.setCol "city" (List.replicate df.nrows (some city))

/-- Chunk loop of `_retrieve_this_city`, given one fetch outcome per month
chunk in order: each chunk's day list is flattened, tagged with the city
and appended; an error outcome propagates immediately (nothing is caught,
nothing is retried). -/
def runChunks (city : String) :
    List FetchResult → DF → List Diag → List Diag × Except PyErr DF
  | [], acc, dgs => (dgs, .ok acc)
  | r :: rest, acc, dgs =>
    match r with
    | .error e => (dgs, .error e)
    | .ok data =>
      match extractData data with
      | (dgs2, .error e) => (dgs ++ dgs2, .error e)
      | (dgs2, .ok blk) =>
        runChunks city rest (concatRows acc (cityTag city blk)) (dgs ++ dgs2)

/-- Embedding of `_retrieve_this_city` as a function of the per-chunk fetch
outcomes (the chunk boundaries themselves only shape the request URLs,
which are outside the model; `monthChunks` above is their embedding). -/
def retrieveThisCityR (city : String) (resps : List FetchResult) :
    List Diag × Except PyErr DF :=
  runChunks city resps emptyDF []

/-- A timestamp-indexed table (`dataset` after `set_index`). -/
structure Table where
  index : Col
  body : DF
deriving DecidableEq

/-- `dataset.set_index('date_time', drop=True, inplace=True)`: `KeyError`
when the column is absent; otherwise the column becomes the index and is
removed from the columns. -/
def setIndexDT (df : DF) : Except PyErr Table :=
  if df.hasCol "date_time" then
    .ok ⟨df.getCol "date_time",
         ⟨df.nrows, df.cols.filter (fun c => ¬ c.1 == "date_time")⟩⟩
  else .error (.keyError "date_time")

/-- Render a cell as `to_csv` does (NaN/NaT as an empty field). -/
def cellStr : Option String → String
  | some s => s
  | none => ""

/-- `dataset.to_csv(filepath, header=True, index=True)`: a header line with
the index column first, then one line per row with the index entry
leading. -/
def toCsvLines (t : Table) : List (List String) :=
  ("date_time" :: t.body.colNames)
    :: (List.range t.body.nrows).map
      (fun i => cellStr (t.index.getD i none)
        :: t.body.cols.map (fun c => cellStr (c.2.getD i none)))

/-- Embedding of `retrieve_hist_data`: set the timestamp index, then
optionally serialize to `csv_directory/city.csv` (`os.path.join` with a
directory), and return the table either way. -/
def retrieveHistData (city : String) (csvDirectory : Option String)
    (resps : List FetchResult) :
    List Diag × Except PyErr (Table × Option (String × List (List String))) :=
  match retrieveThisCityR city resps with
  | (dgs, .error e) => (dgs, .error e)
  | (dgs, .ok df) =>
    match setIndexDT df with
    | .error e => (dgs, .error e)
    | .ok tbl =>
      (dgs, .ok (tbl, csvDirectory.map
        (fun dir => (dir ++ "/" ++ city ++ ".csv", toCsvLines tbl))))

/-! ## DataFrame lemmas -/

theorem hasCol_eq_isSome (df : DF) (k : String) :
    df.hasCol k = (df.cols.find? (fun c => c.1 == k)).isSome := by
  rw [Bool.eq_iff_iff]
  simp [DF.hasCol, List.any_eq_true, List.find?_isSome]

theorem find?_keyCols (ks : List String) (f : String → Col) (k : String) :
    (ks.map (fun j => (j, f j))).find? (fun c => c.1 == k)
      = if k ∈ ks then some (k, f k) else none := by
  induction ks with
  | nil => simp
  | cons a t ih =>
    simp only [List.map_cons]
    by_cases hak : a = k
    · subst hak
      rw [List.find?_cons_of_pos _ (by simp)]
      simp
    · rw [List.find?_cons_of_neg _ (by simp [hak]), ih]
      have hmem : (k ∈ a :: t) ↔ (k ∈ t) := by
        rw [List.mem_cons]
        constructor
        · rintro (rfl | h)
          · exact absurd rfl hak
          · exact h
        · exact Or.inr
      rw [if_congr hmem rfl rfl]

theorem getCol_keyCols (n : Nat) (ks : List String) (f : String → Col)
    (k : String) :
    (DF.mk n (ks.map (fun j => (j, f j)))).getCol k
      = if k ∈ ks then f k else List.replicate n none := by
  unfold DF.getCol
  rw [find?_keyCols]
  by_cases h : k ∈ ks
  · simp only [if_pos h]
  · simp only [if_neg h]

theorem hasCol_keyCols (n : Nat) (ks : List String) (f : String → Col)
    (k : String) :
    (DF.mk n (ks.map (fun j => (j, f j)))).hasCol k = decide (k ∈ ks) := by
  rw [hasCol_eq_isSome]
  show ((ks.map (fun j => (j, f j))).find? (fun c => c.1 == k)).isSome
    = decide (k ∈ ks)
  rw [find?_keyCols]
  by_cases h : k ∈ ks
  · rw [if_pos h, decide_eq_true h]
    rfl
  · rw [if_neg h, decide_eq_false h]
    rfl

theorem find?_mapSnd (cols : List (String × Col)) (g : Col → Col)
    (k : String) :
    (cols.map (fun c => (c.1, g c.2))).find? (fun c => c.1 == k)
      = (cols.find? (fun c => c.1 == k)).map (fun c => (c.1, g c.2)) := by
  induction cols with
  | nil => rfl
  | cons c t ih =>
    simp only [List.map_cons]
    by_cases hc : c.1 = k
    · rw [List.find?_cons_of_pos _ (by simp [hc]),
        List.find?_cons_of_pos _ (by simp [hc])]
      rfl
    · rw [List.find?_cons_of_neg _ (by simp [hc]),
        List.find?_cons_of_neg _ (by simp [hc]), ih]

theorem hasCol_mapSnd (n m : Nat) (cols : List (String × Col))
    (g : Col → Col) (k : String) :
    (DF.mk n (cols.map (fun c => (c.1, g c.2)))).hasCol k
      = (DF.mk m cols).hasCol k := by
  rw [hasCol_eq_isSome, hasCol_eq_isSome]
  show ((cols.map (fun c => (c.1, g c.2))).find? (fun c => c.1 == k)).isSome = _
  rw [find?_mapSnd]
  cases cols.find? (fun c => c.1 == k) <;> rfl

theorem ffill_cols (df : DF) :
    (df.ffill).cols = df.cols.map (fun c => (c.1, ffillCol none c.2)) := rfl

theorem getCol_ffill (df : DF) (k : String) (h : df.hasCol k = true) :
    (df.ffill).getCol k = ffillCol none (df.getCol k) := by
  rw [hasCol_eq_isSome] at h
  cases hf : df.cols.find? (fun c => c.1 == k) with
  | none =>
    rw [hf] at h
    simp at h
  | some c =>
    have h1 : df.getCol k = c.2 := by
      unfold DF.getCol
      rw [hf]
    have hcols : (df.ffill).cols
        = df.cols.map (fun p => (p.1, ffillCol none p.2)) := rfl
    have h2 : (df.ffill).getCol k = ffillCol none c.2 := by
      unfold DF.getCol
      rw [hcols, find?_mapSnd, hf]
      rfl
    rw [h1, h2]

theorem concatCols3_cols (d1 d2 d3 : DF) :
    (concatCols [d1, d2, d3]).cols
      = d1.cols.map (fun c => (c.1, padCol (concatCols [d1, d2, d3]).nrows c.2))
        ++ d2.cols.map (fun c => (c.1, padCol (concatCols [d1, d2, d3]).nrows c.2))
        ++ d3.cols.map (fun c => (c.1, padCol (concatCols [d1, d2, d3]).nrows c.2)) := by
  simp [concatCols, List.flatMap, List.append_assoc]

theorem concatCols3_nrows (d1 d2 d3 : DF) :
    (concatCols [d1, d2, d3]).nrows = ((Nat.max 0 d1.nrows).max d2.nrows).max d3.nrows := by
  simp [concatCols, List.foldl]

theorem find?_append_keyed (l1 l2 : List (String × Col)) (k : String) :
    (l1 ++ l2).find? (fun c => c.1 == k)
      = ((l1.find? (fun c => c.1 == k)).or (l2.find? (fun c => c.1 == k))) :=
  List.find?_append

theorem ffillCol_length (last : Option String) (c : Col) :
    (ffillCol last c).length = c.length := by
  induction c generalizing last with
  | nil => rfl
  | cons x rest ih => cases x <;> simp [ffillCol, ih]

theorem ffillCol_allSome (last : Option String) (c : Col)
    (h : ∀ x ∈ c, x.isSome = true) : ffillCol last c = c := by
  induction c generalizing last with
  | nil => rfl
  | cons x rest ih =>
    cases x with
    | none => exact absurd (h none (List.mem_cons_self _ _)) (by simp)
    | some v =>
      rw [ffillCol, ih (some v) (fun x hx => h x (List.mem_cons_of_mem _ hx))]

theorem ffillCol_replicate_none (last : Option String) (n : Nat) :
    ffillCol last (List.replicate n none) = List.replicate n last := by
  induction n generalizing last with
  | zero => rfl
  | succ n ih => simp [List.replicate_succ, ffillCol, ih]

theorem ffillCol_some_replicate (v : String) (n : Nat) (last : Option String) :
    ffillCol last (some v :: List.replicate n none)
      = List.replicate (n + 1) (some v) := by
  simp [ffillCol, ffillCol_replicate_none, List.replicate_succ]

theorem padCol_eq_self (n : Nat) (c : Col) (h : c.length = n) : padCol n c = c := by
  simp [padCol, h]

theorem padCol_singleton (n : Nat) (x : Option String) :
    padCol n [x] = x :: List.replicate (n - 1) none := by
  simp [padCol]

theorem setCol_nrows (df : DF) (nm : String) (c : Col) :
    (df.setCol nm c).nrows = df.nrows := by
  unfold DF.setCol
  split <;> rfl

theorem find?_replace_self (cols : List (String × Col)) (nm : String) (c : Col) :
    (cols.map (fun p => if p.1 == nm then (p.1, c) else p)).find?
        (fun p => p.1 == nm)
      = if cols.any (fun p => p.1 == nm) then some (nm, c) else none := by
  induction cols with
  | nil => rfl
  | cons p t ih =>
    simp only [List.map_cons, List.any_cons]
    by_cases hp : p.1 = nm
    · rw [if_pos (by simp [hp]), List.find?_cons_of_pos _ (by simp [hp])]
      simp [hp]
    · rw [if_neg (by simp [hp]), List.find?_cons_of_neg _ (by simp [hp]), ih]
      simp only [show (p.1 == nm) = false from beq_eq_false_iff_ne.mpr hp,
        Bool.false_or]

theorem find?_replace_ne (cols : List (String × Col)) (nm k : String) (c : Col)
    (hne : k ≠ nm) :
    (cols.map (fun p => if p.1 == nm then (p.1, c) else p)).find?
        (fun p => p.1 == k)
      = cols.find? (fun p => p.1 == k) := by
  induction cols with
  | nil => rfl
  | cons p t ih =>
    simp only [List.map_cons]
    by_cases hp : p.1 = nm
    · have hpk : (p.1 == k) = false := by
        rw [hp, beq_eq_false_iff_ne]
        exact Ne.symm hne
      rw [if_pos (by simp [hp]),
        List.find?_cons_of_neg _ (by rw [hpk]; simp),
        List.find?_cons_of_neg _ (by rw [hpk]; simp), ih]
    · rw [if_neg (by simp [hp])]
      by_cases hpk : p.1 = k
      · rw [List.find?_cons_of_pos _ (by simp [hpk]),
          List.find?_cons_of_pos _ (by simp [hpk])]
      · rw [List.find?_cons_of_neg _ (by simp [hpk]),
          List.find?_cons_of_neg _ (by simp [hpk]), ih]

theorem getCol_setCol_self (df : DF) (nm : String) (c : Col) :
    (df.setCol nm c).getCol nm = c := by
  unfold DF.setCol
  split
  · rename_i hh
    unfold DF.getCol
    dsimp only
    rw [find?_replace_self]
    unfold DF.hasCol at hh
    rw [if_pos hh]
  · rename_i hh
    unfold DF.getCol
    dsimp only
    rw [List.find?_append]
    have h1 : df.cols.find? (fun p => p.1 == nm) = none := by
      rw [hasCol_eq_isSome] at hh
      cases hfind : df.cols.find? (fun p => p.1 == nm) with
      | none => rfl
      | some x =>
        rw [hfind] at hh
        simp at hh
    rw [h1, List.find?_cons_of_pos _ (by simp)]
    rfl

theorem getCol_setCol_ne (df : DF) (nm k : String) (c : Col) (hne : k ≠ nm) :
    (df.setCol nm c).getCol k = df.getCol k := by
  unfold DF.setCol
  split
  · unfold DF.getCol
    dsimp only
    rw [find?_replace_ne df.cols nm k c hne]
  · unfold DF.getCol
    dsimp only
    rw [List.find?_append]
    have h2 : List.find? (fun p => (p : String × Col).1 == k) [(nm, c)] = none := by
      rw [List.find?_cons_of_neg _ (by simp [Ne.symm hne])]
      rfl
    rw [h2]
    cases df.cols.find? (fun p => p.1 == k) <;> rfl

theorem hasCol_setCol (df : DF) (nm k : String) (c : Col) :
    (df.setCol nm c).hasCol k = (df.hasCol k || k == nm) := by
  unfold DF.setCol
  split
  · rename_i hh
    unfold DF.hasCol
    dsimp only
    rw [List.any_map]
    have hcomp : ((fun p => (p : String × Col).1 == k)
        ∘ (fun p => if p.1 == nm then (p.1, c) else p))
        = fun p => (p : String × Col).1 == k := by
      funext p
      show ((if p.1 == nm then (p.1, c) else p).1 == k) = (p.1 == k)
      split <;> rfl
    rw [hcomp]
    by_cases hkn : k = nm
    · subst hkn
      unfold DF.hasCol at hh
      rw [hh]
      simp
    · rw [show (k == nm) = false from beq_eq_false_iff_ne.mpr hkn]
      simp
  · unfold DF.hasCol
    dsimp only
    rw [List.any_append]
    have h1 : List.any [(nm, c)] (fun p => p.1 == k) = (nm == k) := by simp
    rw [h1]
    rw [show (nm == k) = (k == nm) from by
      by_cases h : nm = k
      · subst h
        rfl
      · rw [beq_eq_false_iff_ne.mpr h, beq_eq_false_iff_ne.mpr (Ne.symm h)]]

theorem find?_dropDupAux (cols : List (String × Col)) :
    ∀ (seen : List String) (k : String), k ∉ seen →
      (dropDupAux seen cols).find? (fun c => c.1 == k)
        = cols.find? (fun c => c.1 == k) := by
  induction cols with
  | nil => intro seen k _; rfl
  | cons c t ih =>
    intro seen k hk
    rw [dropDupAux]
    by_cases hc : seen.contains c.1
    · have hck : (c.1 == k) = false := by
        rw [beq_eq_false_iff_ne]
        intro hh
        exact hk (hh ▸ List.elem_iff.mp hc)
      rw [if_pos hc, List.find?_cons_of_neg _ (by rw [hck]; simp), ih seen k hk]
    · rw [if_neg hc]
      by_cases hck : c.1 = k
      · rw [List.find?_cons_of_pos _ (by simp [hck]),
          List.find?_cons_of_pos _ (by simp [hck])]
      · rw [List.find?_cons_of_neg _ (by simp [hck]),
          List.find?_cons_of_neg _ (by simp [hck])]
        refine ih (c.1 :: seen) k ?_
        intro hmem
        rw [List.mem_cons] at hmem
        rcases hmem with rfl | hmem
        · exact hck rfl
        · exact hk hmem

theorem getCol_dropDup (df : DF) (k : String) :
    (dropDup df).getCol k = df.getCol k := by
  unfold dropDup DF.getCol
  dsimp only
  rw [find?_dropDupAux df.cols [] k (by simp)]

theorem hasCol_dropDup (df : DF) (k : String) :
    (dropDup df).hasCol k = df.hasCol k := by
  rw [hasCol_eq_isSome, hasCol_eq_isSome]
  show ((dropDupAux [] df.cols).find? (fun c => c.1 == k)).isSome = _
  rw [find?_dropDupAux df.cols [] k (by simp)]

theorem lookup_isSome_iff (l : Rec) (k : String) :
    (List.lookup k l).isSome = true ↔ k ∈ l.map Prod.fst := by
  induction l with
  | nil => simp
  | cons kv t ih =>
    cases kv with
    | mk a b =>
      rw [List.lookup_cons]
      by_cases hka : k = a
      · subst hka
        simp
      · rw [show (k == a) = false from beq_eq_false_iff_ne.mpr hka]
        simp only [List.map_cons, List.mem_cons]
        rw [ih]
        constructor
        · exact Or.inr
        · rintro (rfl | h)
          · exact absurd rfl hka
          · exact h

theorem mem_addKeys (r : Rec) :
    ∀ (acc : List String) (k : String),
      k ∈ addKeys acc r ↔ k ∈ acc ∨ k ∈ r.map Prod.fst := by
  induction r with
  | nil =>
    intro acc k
    simp [addKeys]
  | cons kv t ih =>
    intro acc k
    rw [show addKeys acc (kv :: t)
        = addKeys (if acc.contains kv.1 then acc else acc ++ [kv.1]) t from rfl]
    rw [ih]
    by_cases hc : acc.contains kv.1
    · rw [if_pos hc]
      simp only [List.map_cons, List.mem_cons]
      constructor
      · rintro (h | h)
        · exact Or.inl h
        · exact Or.inr (Or.inr h)
      · rintro (h | rfl | h)
        · exact Or.inl h
        · exact Or.inl (List.elem_iff.mp hc)
        · exact Or.inr h
    · rw [if_neg hc]
      simp only [List.mem_append, List.mem_singleton, List.map_cons,
        List.mem_cons]
      constructor
      · rintro ((h | rfl | hnil) | h)
        · exact Or.inl h
        · exact Or.inr (Or.inl rfl)
        · exact absurd hnil (List.not_mem_nil _)
        · exact Or.inr (Or.inr h)
      · rintro (h | rfl | h)
        · exact Or.inl (Or.inl h)
        · exact Or.inl (Or.inr (Or.inl rfl))
        · exact Or.inr h

theorem mem_unionKeys (rs : List Rec) (k : String) :
    k ∈ unionKeys rs ↔ ∃ r ∈ rs, k ∈ r.map Prod.fst := by
  suffices h : ∀ acc, k ∈ rs.foldl addKeys acc
      ↔ k ∈ acc ∨ ∃ r ∈ rs, k ∈ r.map Prod.fst by
    have h2 := h []
    simp only [List.not_mem_nil, false_or] at h2
    exact h2
  induction rs with
  | nil =>
    intro acc
    simp
  | cons r t ih =>
    intro acc
    rw [List.foldl_cons, ih, mem_addKeys]
    constructor
    · rintro ((h | h) | ⟨r2, hr2, hk2⟩)
      · exact Or.inl h
      · exact Or.inr ⟨r, List.mem_cons_self r t, h⟩
      · exact Or.inr ⟨r2, List.mem_cons_of_mem _ hr2, hk2⟩
    · rintro (h | ⟨r2, hr2, hk2⟩)
      · exact Or.inl (Or.inl h)
      · rw [List.mem_cons] at hr2
        rcases hr2 with rfl | hr2
        · exact Or.inl (Or.inr hk2)
        · exact Or.inr ⟨r2, hr2, hk2⟩

theorem hasCol_iff_mem (df : DF) (k : String) :
    df.hasCol k = true ↔ k ∈ df.colNames := by
  unfold DF.hasCol DF.colNames
  rw [List.any_eq_true]
  constructor
  · rintro ⟨c, hc, hck⟩
    exact List.mem_map.mpr ⟨c, hc, eq_of_beq hck⟩
  · intro hm
    obtain ⟨c, hc, rfl⟩ := List.mem_map.mp hm
    exact ⟨c, hc, by simp⟩

theorem find?_eq_none_of_hasCol_false (df : DF) (k : String)
    (h : df.hasCol k = false) :
    df.cols.find? (fun c => c.1 == k) = none := by
  rw [hasCol_eq_isSome] at h
  cases hf : df.cols.find? (fun c => c.1 == k) with
  | none => rfl
  | some c =>
    rw [hf] at h
    simp at h

theorem find?_eq_some_of_hasCol (df : DF) (k : String)
    (h : df.hasCol k = true) :
    ∃ c, df.cols.find? (fun c => c.1 == k) = some c := by
  rw [hasCol_eq_isSome] at h
  exact Option.isSome_iff_exists.mp h

theorem getCol_concat3_first (d1 d2 d3 : DF) (k : String)
    (h : d1.hasCol k = true) :
    (concatCols [d1, d2, d3]).getCol k
      = padCol (concatCols [d1, d2, d3]).nrows (d1.getCol k) := by
  obtain ⟨c1, hc1⟩ := find?_eq_some_of_hasCol d1 k h
  unfold DF.getCol
  rw [concatCols3_cols, List.find?_append, List.find?_append, find?_mapSnd, hc1]
  rfl

theorem getCol_concat3_second (d1 d2 d3 : DF) (k : String)
    (h1 : d1.hasCol k = false) (h2 : d2.hasCol k = true) :
    (concatCols [d1, d2, d3]).getCol k
      = padCol (concatCols [d1, d2, d3]).nrows (d2.getCol k) := by
  have hn1 := find?_eq_none_of_hasCol_false d1 k h1
  obtain ⟨c2, hc2⟩ := find?_eq_some_of_hasCol d2 k h2
  unfold DF.getCol
  rw [concatCols3_cols, List.find?_append, List.find?_append, find?_mapSnd,
    find?_mapSnd, hn1, hc2]
  rfl

theorem getCol_concat3_third (d1 d2 d3 : DF) (k : String)
    (h1 : d1.hasCol k = false) (h2 : d2.hasCol k = false)
    (h3 : d3.hasCol k = true) :
    (concatCols [d1, d2, d3]).getCol k
      = padCol (concatCols [d1, d2, d3]).nrows (d3.getCol k) := by
  have hn1 := find?_eq_none_of_hasCol_false d1 k h1
  have hn2 := find?_eq_none_of_hasCol_false d2 k h2
  obtain ⟨c3, hc3⟩ := find?_eq_some_of_hasCol d3 k h3
  unfold DF.getCol
  rw [concatCols3_cols, List.find?_append, List.find?_append, find?_mapSnd,
    find?_mapSnd, find?_mapSnd, hn1, hn2, hc3]
  rfl

theorem hasCol_concat3 (d1 d2 d3 : DF) (k : String) :
    (concatCols [d1, d2, d3]).hasCol k
      = (d1.hasCol k || d2.hasCol k || d3.hasCol k) := by
  rw [hasCol_eq_isSome, hasCol_eq_isSome, hasCol_eq_isSome, hasCol_eq_isSome]
  rw [concatCols3_cols, List.find?_append, List.find?_append, find?_mapSnd,
    find?_mapSnd, find?_mapSnd]
  cases d1.cols.find? (fun c => c.1 == k) <;>
    cases d2.cols.find? (fun c => c.1 == k) <;>
    cases d3.cols.find? (fun c => c.1 == k) <;> rfl

theorem getCol_dfFromRecs (rs : List Rec) (k : String) :
    (dfFromRecs rs).getCol k
      = if k ∈ unionKeys rs then rs.map (fun r => List.lookup k r)
        else List.replicate rs.length none := by
  unfold dfFromRecs
  exact getCol_keyCols _ _ _ _

theorem hasCol_dfFromRecs (rs : List Rec) (k : String) :
    (dfFromRecs rs).hasCol k = decide (k ∈ unionKeys rs) := by
  unfold dfFromRecs
  exact hasCol_keyCols _ _ _ _

theorem getCol_mkMainDF (day : DayRecord) (n : Nat) (k : String) :
    (mkMainDF day n).getCol k
      = if k ∈ mainKeys then List.replicate n (List.lookup k day.scalars)
        else List.replicate n none := by
  unfold mkMainDF
  exact getCol_keyCols _ _ _ _

theorem hasCol_mkMainDF (day : DayRecord) (n : Nat) (k : String) :
    (mkMainDF day n).hasCol k = decide (k ∈ mainKeys) := by
  unfold mkMainDF
  exact hasCol_keyCols _ _ _ _

theorem concatRows_nrows (a b : DF) :
    (concatRows a b).nrows = a.nrows + b.nrows := rfl

theorem colNames_concatRows (a b : DF) :
    (concatRows a b).colNames
      = a.colNames ++ b.colNames.filter (fun k => ¬ a.colNames.contains k) := by
  unfold concatRows DF.colNames
  dsimp only
  rw [List.map_map]
  have hcmp : (Prod.fst ∘ (fun k => (k, a.getCol k ++ b.getCol k)))
      = (id : String → String) := by
    funext k
    rfl
  rw [show (a.cols.map Prod.fst ++ (b.cols.map Prod.fst).filter
      (fun k => ¬ (a.cols.map Prod.fst).contains k)).map
        (Prod.fst ∘ (fun k => (k, a.getCol k ++ b.getCol k)))
    = (a.cols.map Prod.fst ++ (b.cols.map Prod.fst).filter
      (fun k => ¬ (a.cols.map Prod.fst).contains k)).map id from by rw [hcmp]]
  rw [List.map_id]

theorem getCol_concatRows (a b : DF) (k : String)
    (hk : k ∈ a.colNames ++ b.colNames.filter (fun j => ¬ a.colNames.contains j)) :
    (concatRows a b).getCol k = a.getCol k ++ b.getCol k := by
  unfold concatRows
  rw [show (DF.mk (a.nrows + b.nrows)
      ((a.colNames ++ b.colNames.filter (fun j => ¬ a.colNames.contains j)).map
        (fun k => (k, a.getCol k ++ b.getCol k)))).getCol k
    = if k ∈ a.colNames ++ b.colNames.filter (fun j => ¬ a.colNames.contains j)
      then a.getCol k ++ b.getCol k
      else List.replicate (a.nrows + b.nrows) none from getCol_keyCols _ _ _ _]
  rw [if_pos hk]

theorem hasCol_concatRows (a b : DF) (k : String) :
    (concatRows a b).hasCol k = (a.hasCol k || b.hasCol k) := by
  rw [Bool.eq_iff_iff, Bool.or_eq_true, hasCol_iff_mem, hasCol_iff_mem,
    hasCol_iff_mem, colNames_concatRows]
  rw [List.mem_append]
  constructor
  · rintro (h | h)
    · exact Or.inl h
    · exact Or.inr (List.mem_of_mem_filter h)
  · rintro (h | h)
    · exact Or.inl h
    · by_cases ha : k ∈ a.colNames
      · exact Or.inl ha
      · refine Or.inr (List.mem_filter.mpr ⟨h, ?_⟩)
        simp only [decide_eq_true_eq]
        intro hc
        exact ha (List.elem_iff.mp hc)

theorem hasCol_ffill (df : DF) (k : String) :
    (df.ffill).hasCol k = df.hasCol k := by
  show (DF.mk df.nrows (df.cols.map (fun p => (p.1, ffillCol none p.2)))).hasCol k
    = df.hasCol k
  rw [hasCol_mapSnd df.nrows df.nrows df.cols (ffillCol none) k]

theorem ffillCol_replicate (v : Option String) (n : Nat) :
    ffillCol none (List.replicate n v) = List.replicate n v := by
  cases v with
  | none => rw [ffillCol_replicate_none]
  | some s =>
    exact ffillCol_allSome _ _ (fun x hx => by rw [List.eq_of_mem_replicate hx]; rfl)

theorem zipWith_replicate_of_length (f : Option String → Option String → Option String)
    (x : Option String) (l : Col) :
    List.zipWith f (List.replicate l.length x) l = l.map (f x) := by
  induction l with
  | nil => rfl
  | cons y t ih =>
    simp only [List.length_cons, List.replicate_succ, List.zipWith_cons_cons,
      List.map_cons]
    rw [ih]

theorem isSome_of_any (p : String → Bool) (o : Option String)
    (h : Option.any p o = true) : o.isSome = true := by
  cases o with
  | none => simp at h
  | some v => rfl

/-! ## Test fixtures (typical provider records) -/

/-- A typical astronomy record. -/
def astroRec : Rec :=
  [("moon_illumination", "36"), ("moonrise", "10:15 AM"), ("moonset", "09:58 PM"),
   ("sunrise", "07:18 AM"), ("sunset", "04:30 PM")]

/-- A typical hourly record with time code `t` and temperature `temp`. -/
def hourRec (t temp : String) : Rec :=
  [("time", t), ("DewPointC", "2"), ("FeelsLikeC", "3"), ("HeatIndexC", "4"),
   ("WindChillC", "3"), ("WindGustKmph", "11"), ("cloudcover", "60"),
   ("humidity", "82"), ("precipMM", "0.0"), ("pressure", "1018"), ("tempC", temp),
   ("visibility", "10"), ("uvIndex", "1"), ("winddirDegree", "230"),
   ("windspeedKmph", "7")]

/-- The day-level scalar fields for date string `d`. -/
def dayScalars (d : String) : Rec :=
  [("date", d), ("maxtempC", "6"), ("mintempC", "1"), ("totalSnow_cm", "0.0"),
   ("sunHour", "3.5"), ("uvIndex", "1")]

/-- A fully populated day record. -/
def goodDay (d : String) (hrs : List Rec) : DayRecord :=
  ⟨dayScalars d, some [astroRec], some hrs⟩

/-- A day record with no `date` key (otherwise fully populated). -/
def dayNoDate : DayRecord :=
  ⟨[("maxtempC", "6"), ("mintempC", "1"), ("totalSnow_cm", "0.0"),
    ("sunHour", "3.5"), ("uvIndex", "1")],
   some [astroRec], some [hourRec "300" "4"]⟩

/-- The DataFrame produced by a successful `_extract_data` run. -/
def extractOkDF (ds : List DayRecord) : DF :=
  match (extractData ds).2 with
  | .ok df => df
  | .error _ => emptyDF

/-- The C2 failing input: a day record without `date`, then a valid day. -/
def c2Days : List DayRecord := [dayNoDate, goodDay "2020-01-02" [hourRec "300" "4"]]

/-- C2 (refutation of the claim on the code): the `'date' in day_df.columns`
half of the guard can never fail, because `weather_main` always creates a
`date` column (broadcasting `day_data.get('date', None)`); hence a day
record missing the `date` field is NOT skipped and no diagnostic is printed.
On the failing input (a day without `date` followed by a valid day) the
flattener raises nothing, prints nothing, and emits both days' rows, the
first with a null (NaT) timestamp. -/
theorem missing_date_not_skipped :
    (∀ day : DayRecord, (dayDF day).hasCol "date" = true)
    ∧ (extractData c2Days).2 = Except.ok (extractOkDF c2Days)
    ∧ (extractData c2Days).1 = []
    ∧ (extractOkDF c2Days).nrows = 2
    ∧ (extractOkDF c2Days).getCol "date_time" = [none, some "2020-01-02 03"] := by
  refine ⟨?_, rfl, rfl, rfl, rfl⟩
  intro day
  unfold dayDF
  rw [hasCol_ffill, hasCol_concat3]
  have hmain : (mainDF day).hasCol "date" = true := by
    unfold mainDF
    rw [hasCol_mkMainDF]
    decide
  rw [hmain]
  rfl

/-! ## C3: per-day flattening -/

/-- The day-summary output fields (after `date_time`). -/
def dayNeededKeys : List String :=
  ["maxtempC", "mintempC", "totalSnow_cm", "sunHour", "uvIndex"]

/-- The astronomy output fields. -/
def astroNeededKeys : List String :=
  ["moon_illumination", "moonrise", "moonset", "sunrise", "sunset"]

/-- The hourly output fields. -/
def hourlyNeededKeys : List String :=
  ["DewPointC", "FeelsLikeC", "HeatIndexC", "WindChillC", "WindGustKmph",
   "cloudcover", "humidity", "precipMM", "pressure", "tempC", "visibility",
   "winddirDegree", "windspeedKmph"]

example : columnsNeeded
    = "date_time" :: (dayNeededKeys ++ astroNeededKeys ++ hourlyNeededKeys) := by
  decide

/-- C3: a day record with `N` hourly sub-records (each carrying a valid time
code and the needed hourly fields), one astronomy record carrying the
astronomy fields, and a parseable `date` field flattens without error or
diagnostic into exactly `N` rows: the timestamp column combines the shared
date with each row's normalized hour, and every day-summary and astronomy
field is replicated identically (broadcast resp. forward-fill) across all
`N` rows. -/
theorem flattener_rows_per_day (sc a : Rec) (hrs : List Rec) (ds : String)
    (N : Nat) (hN : hrs.length = N) (hpos : 0 < N)
    (hdate : List.lookup "date" sc = some ds)
    (hdsv : (parseDateStr ds).isSome = true)
    (hast : ∀ k ∈ astroNeededKeys, k ∈ a.map Prod.fst)
    (hanot : "time" ∉ a.map Prod.fst)
    (htime : ∀ hr ∈ hrs,
      Option.any (fun t => isHourStr (normTime t)) (List.lookup "time" hr) = true)
    (hhk : ∀ k ∈ hourlyNeededKeys, ∃ hr ∈ hrs, k ∈ hr.map Prod.fst) :
    extractData [⟨sc, some [a], some hrs⟩]
        = ([], Except.ok (extractOkDF [⟨sc, some [a], some hrs⟩]))
    ∧ (extractOkDF [⟨sc, some [a], some hrs⟩]).nrows = N
    ∧ (extractOkDF [⟨sc, some [a], some hrs⟩]).getCol "date_time"
        = hrs.map (fun hr => (List.lookup "time" hr).map
            (fun t => ds ++ " " ++ normTime t))
    ∧ (∀ k ∈ dayNeededKeys,
        (extractOkDF [⟨sc, some [a], some hrs⟩]).getCol k
          = List.replicate N (List.lookup k sc))
    ∧ (∀ k ∈ astroNeededKeys,
        (extractOkDF [⟨sc, some [a], some hrs⟩]).getCol k
          = List.replicate N (List.lookup k a)) := by
  subst hN
  set D : DayRecord := ⟨sc, some [a], some hrs⟩ with hD
  have hmainD : mainDF D = mkMainDF D hrs.length := rfl
  have hastroD : astroDF D = dfFromRecs [a] := rfl
  have hhourD : hourlyDF D = dfFromRecs hrs := rfl
  have hscal : D.scalars = sc := rfl
  have hnr : (concatCols [mainDF D, astroDF D, hourlyDF D]).nrows = hrs.length := by
    rw [concatCols3_nrows]
    have e1 : (mainDF D).nrows = hrs.length := rfl
    have e2 : (astroDF D).nrows = 1 := rfl
    have e3 : (hourlyDF D).nrows = hrs.length := rfl
    rw [e1, e2, e3]
    show (((0 : Nat) ⊔ hrs.length) ⊔ 1) ⊔ hrs.length = hrs.length
    rw [Nat.max_eq_right (Nat.zero_le hrs.length), Nat.max_eq_left hpos,
      Nat.max_self]
  have hUA : ∀ k : String, k ∈ unionKeys [a] ↔ k ∈ a.map Prod.fst := by
    intro k
    rw [mem_unionKeys]
    simp
  have hUH : ∀ k : String, k ∈ unionKeys hrs ↔ ∃ hr ∈ hrs, k ∈ hr.map Prod.fst :=
    fun k => mem_unionKeys hrs k
  have hasMain : ∀ k : String, (mainDF D).hasCol k = decide (k ∈ mainKeys) := by
    intro k
    rw [hmainD, hasCol_mkMainDF]
  have hasAstro : ∀ k : String, (astroDF D).hasCol k = decide (k ∈ unionKeys [a]) := by
    intro k
    rw [hastroD, hasCol_dfFromRecs]
  have hasHour : ∀ k : String, (hourlyDF D).hasCol k = decide (k ∈ unionKeys hrs) := by
    intro k
    rw [hhourD, hasCol_dfFromRecs]
  have hdayDF : dayDF D = (concatCols [mainDF D, astroDF D, hourlyDF D]).ffill := rfl
  have gMain : ∀ k ∈ mainKeys, (dayDF D).getCol k
      = List.replicate hrs.length (List.lookup k sc) := by
    intro k hk
    have hc : (concatCols [mainDF D, astroDF D, hourlyDF D]).hasCol k = true := by
      rw [hasCol_concat3, hasMain k, decide_eq_true hk]
      simp
    rw [hdayDF, getCol_ffill _ _ hc,
      getCol_concat3_first _ _ _ _ (by rw [hasMain k, decide_eq_true hk])]
    rw [hnr, hmainD, getCol_mkMainDF, if_pos hk, hscal]
    rw [padCol_eq_self _ _ (by simp), ffillCol_replicate]
  have hdisj : ∀ x ∈ astroNeededKeys, x ∉ mainKeys := by decide
  have gAstro : ∀ k ∈ astroNeededKeys, (dayDF D).getCol k
      = List.replicate hrs.length (List.lookup k a) := by
    intro k hk
    have hka : k ∈ a.map Prod.fst := hast k hk
    have hA : (astroDF D).hasCol k = true := by
      rw [hasAstro k, decide_eq_true ((hUA k).mpr hka)]
    have hM : (mainDF D).hasCol k = false := by
      rw [hasMain k, decide_eq_false (hdisj k hk)]
    have hc : (concatCols [mainDF D, astroDF D, hourlyDF D]).hasCol k = true := by
      rw [hasCol_concat3, hA]
      simp
    obtain ⟨v, hv⟩ := Option.isSome_iff_exists.mp ((lookup_isSome_iff a k).mpr hka)
    rw [hdayDF, getCol_ffill _ _ hc, getCol_concat3_second _ _ _ _ hM hA]
    rw [hnr, hastroD, getCol_dfFromRecs, if_pos ((hUA k).mpr hka)]
    rw [show ([a].map (fun r => List.lookup k r)) = [List.lookup k a] from rfl]
    rw [padCol_singleton, hv, ffillCol_some_replicate]
    rw [show hrs.length - 1 + 1 = hrs.length from by omega]
  have gDate : (dayDF D).getCol "date" = List.replicate hrs.length (some ds) := by
    rw [gMain "date" (by decide), hdate]
  have hTimeMemH : "time" ∈ unionKeys hrs := by
    obtain ⟨hr0, hhr0⟩ := List.exists_mem_of_length_pos (by omega : 0 < hrs.length)
    refine (hUH "time").mpr ⟨hr0, hhr0, ?_⟩
    exact (lookup_isSome_iff hr0 "time").mp (isSome_of_any _ _ (htime hr0 hhr0))
  have gTime : (dayDF D).getCol "time"
      = hrs.map (fun hr => List.lookup "time" hr) := by
    have hM : (mainDF D).hasCol "time" = false := by
      rw [hasMain]
      decide
    have hA : (astroDF D).hasCol "time" = false := by
      rw [hasAstro]
      exact decide_eq_false (fun hmem => hanot ((hUA "time").mp hmem))
    have hH : (hourlyDF D).hasCol "time" = true := by
      rw [hasHour]
      exact decide_eq_true hTimeMemH
    have hc : (concatCols [mainDF D, astroDF D, hourlyDF D]).hasCol "time" = true := by
      rw [hasCol_concat3, hH]
      simp
    rw [hdayDF, getCol_ffill _ _ hc, getCol_concat3_third _ _ _ _ hM hA hH]
    rw [hnr, hhourD, getCol_dfFromRecs, if_pos hTimeMemH]
    rw [padCol_eq_self _ _ (by simp)]
    refine ffillCol_allSome _ _ ?_
    intro x hx
    obtain ⟨hr, hhr, rfl⟩ := List.mem_map.mp hx
    exact isSome_of_any _ _ (htime hr hhr)
  have hTimeCol : timeCol D
      = hrs.map (fun hr => (List.lookup "time" hr).map normTime) := by
    unfold timeCol
    rw [gTime, List.map_map]
    rfl
  have gDate2 : (dfWithTime D).getCol "date"
      = List.replicate hrs.length (some ds) := by
    unfold dfWithTime
    rw [getCol_setCol_ne _ _ _ _ (by decide), gDate]
  have hDTC : dateTimeCol D
      = hrs.map (fun hr => (List.lookup "time" hr).map
          (fun t => ds ++ " " ++ normTime t)) := by
    unfold dateTimeCol
    rw [gDate2, hTimeCol]
    have hlen : (hrs.map (fun hr => (List.lookup "time" hr).map normTime)).length
        = hrs.length := by simp
    rw [show List.replicate hrs.length (some ds)
        = List.replicate
            (hrs.map (fun hr => (List.lookup "time" hr).map normTime)).length
            (some ds) from by rw [hlen]]
    rw [zipWith_replicate_of_length, List.map_map]
    apply List.map_congr_left
    intro hr hhr
    show mkDateTime (some ds) ((List.lookup "time" hr).map normTime) = _
    have ht := htime hr hhr
    cases hlk : List.lookup "time" hr with
    | none =>
      rw [hlk] at ht
      simp at ht
    | some t =>
      rw [hlk] at ht
      rw [show Option.any (fun t => isHourStr (normTime t)) (some t)
          = isHourStr (normTime t) from rfl] at ht
      show mkDateTime (some ds) (some (normTime t)) = some (ds ++ " " ++ normTime t)
      unfold mkDateTime
      simp [hdsv, ht]
  have hasDayDF : ∀ k : String, (dayDF D).hasCol k
      = ((decide (k ∈ mainKeys) || decide (k ∈ unionKeys [a]))
          || decide (k ∈ unionKeys hrs)) := by
    intro k
    rw [hdayDF, hasCol_ffill, hasCol_concat3, hasMain k, hasAstro k, hasHour k]
  have hasWT : ∀ k : String, (dfWithTime D).hasCol k
      = ((dayDF D).hasCol k || k == "time") := by
    intro k
    unfold dfWithTime
    rw [hasCol_setCol]
  have hasWDT : ∀ k : String, (dfWithDT D).hasCol k
      = ((dfWithTime D).hasCol k || k == "date_time") := by
    intro k
    unfold dfWithDT
    rw [hasCol_setCol]
  have hcasesAll : ∀ x ∈ columnsNeeded, x = "date_time" ∨ x ∈ dayNeededKeys
      ∨ x ∈ astroNeededKeys ∨ x ∈ hourlyNeededKeys := by decide
  have hsubDM : ∀ x ∈ dayNeededKeys, x ∈ mainKeys := by decide
  have hsel : List.all columnsNeeded
      (fun nm => (dropDup (dfWithDT D)).hasCol nm) = true := by
    rw [List.all_eq_true]
    intro nm hnm
    rw [hasCol_dropDup, hasWDT, hasWT, hasDayDF]
    rcases hcasesAll nm hnm with rfl | hd | ha2 | hh2
    · simp
    · rw [decide_eq_true (hsubDM nm hd)]
      simp
    · rw [decide_eq_true ((hUA nm).mpr (hast nm ha2))]
      simp
    · obtain ⟨hr, hhr, hkhr⟩ := hhk nm hh2
      rw [decide_eq_true ((hUH nm).mpr ⟨hr, hhr, hkhr⟩)]
      simp
  set blk : DF := DF.mk (dropDup (dfWithDT D)).nrows
      (columnsNeeded.map (fun nm => (nm, (dropDup (dfWithDT D)).getCol nm)))
    with hblk
  have hselEq : selectCols (dropDup (dfWithDT D)) columnsNeeded = some blk := by
    unfold selectCols
    rw [if_pos hsel]
  have hcond : ((dayDF D).hasCol "date" && (dayDF D).hasCol "time") = true := by
    have h1 : (dayDF D).hasCol "date" = true := by
      rw [hasDayDF, decide_eq_true (show "date" ∈ mainKeys by decide)]
      simp
    have h2 : (dayDF D).hasCol "time" = true := by
      rw [hasDayDF, decide_eq_true hTimeMemH]
      simp
    rw [h1, h2]
    rfl
  have hflat : flattenDay D = Except.ok (DayOut.block blk) := by
    unfold flattenDay
    rw [if_pos hcond, hselEq]
  have hblkN : blk.nrows = hrs.length := by
    rw [hblk]
    show (dropDup (dfWithDT D)).nrows = hrs.length
    rw [show (dropDup (dfWithDT D)).nrows = (dfWithDT D).nrows from rfl]
    unfold dfWithDT dfWithTime
    rw [setCol_nrows, setCol_nrows]
    rw [show (dayDF D).nrows
        = (concatCols [mainDF D, astroDF D, hourlyDF D]).nrows from rfl]
    exact hnr
  have gBlk : ∀ k ∈ columnsNeeded,
      blk.getCol k = (dropDup (dfWithDT D)).getCol k := by
    intro k hk
    rw [hblk]
    rw [getCol_keyCols, if_pos hk]
  have gDT_blk : (dfWithDT D).getCol "date_time" = dateTimeCol D := by
    unfold dfWithDT
    rw [getCol_setCol_self]
  have gOther : ∀ k : String, k ≠ "date_time" → k ≠ "time" →
      (dfWithDT D).getCol k = (dayDF D).getCol k := by
    intro k h1 h2
    unfold dfWithDT dfWithTime
    rw [getCol_setCol_ne _ _ _ _ h1, getCol_setCol_ne _ _ _ _ h2]
  have hdtBlk : blk.hasCol "date_time" = true := by
    rw [hblk, hasCol_keyCols]
    decide
  have hdtCR : (concatRows emptyDF blk).hasCol "date_time" = true := by
    rw [hasCol_concatRows, hdtBlk]
    simp
  have hER : extractData [D] = ([], Except.ok (concatRows emptyDF blk)) := by
    unfold extractData
    rw [show extractGo [D] emptyDF []
        = extractGo [] (concatRows emptyDF blk) [] from by
      simp only [extractGo, hflat]]
    rw [show extractGo [] (concatRows emptyDF blk) []
        = ([] ++ (if (concatRows emptyDF blk).hasCol "date_time" then []
            else [Diag.noDateTimeColumn]),
           Except.ok (concatRows emptyDF blk)) from by
      simp only [extractGo]]
    rw [hdtCR]
    simp
  have hOk : extractOkDF [D] = concatRows emptyDF blk := by
    unfold extractOkDF
    rw [hER]
  have hfilterAll : blk.colNames.filter (fun j => ¬ emptyDF.colNames.contains j)
      = blk.colNames :=
    List.filter_eq_self.mpr (fun x _ => rfl)
  have hNamesBlk : blk.colNames = columnsNeeded := by
    rw [hblk]
    show (columnsNeeded.map
        (fun nm => (nm, (dropDup (dfWithDT D)).getCol nm))).map Prod.fst
      = columnsNeeded
    rw [List.map_map]
    rw [show (Prod.fst ∘ (fun nm => (nm, (dropDup (dfWithDT D)).getCol nm)))
        = (id : String → String) from by funext x; rfl]
    exact List.map_id _
  have gFin : ∀ k ∈ columnsNeeded,
      (concatRows emptyDF blk).getCol k = blk.getCol k := by
    intro k hk
    have hmem : k ∈ emptyDF.colNames
        ++ blk.colNames.filter (fun j => ¬ emptyDF.colNames.contains j) := by
      rw [hfilterAll, hNamesBlk]
      show k ∈ [] ++ columnsNeeded
      simpa using hk
    rw [getCol_concatRows emptyDF blk k hmem]
    rw [show emptyDF.getCol k = ([] : Col) from rfl, List.nil_append]
  have hsubD : ∀ x ∈ dayNeededKeys, x ∈ columnsNeeded := by decide
  have hsubA : ∀ x ∈ astroNeededKeys, x ∈ columnsNeeded := by decide
  have hneD : ∀ x ∈ dayNeededKeys, x ≠ "date_time" ∧ x ≠ "time" := by decide
  have hneA : ∀ x ∈ astroNeededKeys, x ≠ "date_time" ∧ x ≠ "time" := by decide
  refine ⟨?_, ?_, ?_, ?_, ?_⟩
  · rw [hOk]
    exact hER
  · rw [hOk, concatRows_nrows, hblkN]
    simp [emptyDF]
  · rw [hOk, gFin "date_time" (by decide), gBlk "date_time" (by decide),
      getCol_dropDup, gDT_blk, hDTC]
  · intro k hk
    rw [hOk, gFin k (hsubD k hk), gBlk k (hsubD k hk), getCol_dropDup,
      gOther k (hneD k hk).1 (hneD k hk).2, gMain k (hsubDM k hk)]
  · intro k hk
    rw [hOk, gFin k (hsubA k hk), gBlk k (hsubA k hk), getCol_dropDup,
      gOther k (hneA k hk).1 (hneA k hk).2, gAstro k hk]

/-- Witness for C3 on a concrete two-hour day record. -/
theorem flattener_rows_per_day_witness :
    extractData [⟨dayScalars "2020-01-02", some [astroRec],
        some [hourRec "0" "5", hourRec "1200" "6"]⟩]
        = ([], Except.ok (extractOkDF [⟨dayScalars "2020-01-02", some [astroRec],
            some [hourRec "0" "5", hourRec "1200" "6"]⟩]))
    ∧ (extractOkDF [⟨dayScalars "2020-01-02", some [astroRec],
        some [hourRec "0" "5", hourRec "1200" "6"]⟩]).nrows = 2
    ∧ (extractOkDF [⟨dayScalars "2020-01-02", some [astroRec],
        some [hourRec "0" "5", hourRec "1200" "6"]⟩]).getCol "date_time"
        = [hourRec "0" "5", hourRec "1200" "6"].map (fun hr =>
            (List.lookup "time" hr).map
              (fun t => "2020-01-02" ++ " " ++ normTime t))
    ∧ (∀ k ∈ dayNeededKeys,
        (extractOkDF [⟨dayScalars "2020-01-02", some [astroRec],
          some [hourRec "0" "5", hourRec "1200" "6"]⟩]).getCol k
          = List.replicate 2 (List.lookup k (dayScalars "2020-01-02")))
    ∧ (∀ k ∈ astroNeededKeys,
        (extractOkDF [⟨dayScalars "2020-01-02", some [astroRec],
          some [hourRec "0" "5", hourRec "1200" "6"]⟩]).getCol k
          = List.replicate 2 (List.lookup k astroRec)) :=
  flattener_rows_per_day (dayScalars "2020-01-02") astroRec
    [hourRec "0" "5", hourRec "1200" "6"] "2020-01-02" 2 rfl (by decide)
    (by decide) (by decide) (by decide) (by decide) (by decide) (by decide)

/-! ## C6: the fixed output schema -/

theorem colNames_keyCols (n : Nat) (ks : List String) (f : String → Col) :
    (DF.mk n (ks.map (fun k => (k, f k)))).colNames = ks := by
  show (ks.map (fun k => (k, f k))).map Prod.fst = ks
  rw [List.map_map]
  rw [show (Prod.fst ∘ fun k => (k, f k)) = (id : String → String) from by
    funext x
    rfl]
  exact List.map_id _

theorem flatten_block_shape (day : DayRecord) (blk : DF)
    (h : flattenDay day = Except.ok (DayOut.block blk)) :
    blk = DF.mk (dropDup (dfWithDT day)).nrows
      (columnsNeeded.map (fun nm => (nm, (dropDup (dfWithDT day)).getCol nm))) := by
  unfold flattenDay at h
  split at h
  · cases hsel : selectCols (dropDup (dfWithDT day)) columnsNeeded with
    | some b =>
      rw [hsel] at h
      have hb : b = blk := by
        injection h with h1
        injection h1
      unfold selectCols at hsel
      by_cases hall : (columnsNeeded.all
          fun nm => (dropDup (dfWithDT day)).hasCol nm) = true
      · rw [if_pos hall] at hsel
        injection hsel with h2
        rw [← hb, ← h2]
      · rw [if_neg hall] at hsel
        exact Option.noConfusion hsel
    | none =>
      rw [hsel] at h
      exact Except.noConfusion h
  · injection h with h1
    exact DayOut.noConfusion h1

theorem extractGo_colNames (ds : List DayRecord) :
    ∀ (acc : DF) (dgs dgs2 : List Diag) (df : DF),
      (acc = emptyDF ∨ acc.colNames = columnsNeeded) →
      extractGo ds acc dgs = (dgs2, Except.ok df) →
      (df = emptyDF ∨ df.colNames = columnsNeeded) := by
  induction ds with
  | nil =>
    intro acc dgs dgs2 df hinv h
    rw [show extractGo [] acc dgs
        = (dgs ++ (if acc.hasCol "date_time" then []
            else [Diag.noDateTimeColumn]), Except.ok acc) from rfl] at h
    injection h with h1 h2
    injection h2 with h3
    rw [← h3]
    exact hinv
  | cons day rest ih =>
    intro acc dgs dgs2 df hinv h
    rw [show extractGo (day :: rest) acc dgs = (match flattenDay day with
        | .error e => (dgs, .error e)
        | .ok (.skipped dg) => extractGo rest acc (dgs ++ [dg])
        | .ok (.block blkx) => extractGo rest (concatRows acc blkx) dgs)
      from rfl] at h
    cases hf : flattenDay day with
    | error e =>
      rw [hf] at h
      injection h with h1 h2
      exact Except.noConfusion h2
    | ok dout =>
      cases dout with
      | skipped dg =>
        rw [hf] at h
        exact ih acc (dgs ++ [dg]) dgs2 df hinv h
      | block blkx =>
        rw [hf] at h
        refine ih (concatRows acc blkx) dgs dgs2 df (Or.inr ?_) h
        have hblkN : blkx.colNames = columnsNeeded := by
          rw [flatten_block_shape day blkx hf, colNames_keyCols]
        rcases hinv with rfl | hacc
        · have hf2 : blkx.colNames.filter (fun k => ¬ emptyDF.colNames.contains k)
              = blkx.colNames :=
            List.filter_eq_self.mpr (fun x _ => rfl)
          have hemp : emptyDF.colNames
              ++ blkx.colNames.filter (fun k => ¬ emptyDF.colNames.contains k)
              = blkx.colNames := by
            rw [hf2]
            rfl
          rw [colNames_concatRows, hemp, hblkN]
        · rw [colNames_concatRows, hacc, hblkN]
          rw [List.filter_eq_nil_iff.mpr ?_, List.append_nil]
          intro x hx
          simp only [decide_eq_true_eq]
          intro hcon
          exact hcon (List.elem_iff.mpr hx)

/-- C6: any non-error run of the flattener that emitted at least one row
produced exactly the fixed, ordered 24-column schema (timestamp followed by
the 23 weather fields), duplicates from the join having been dropped before
the projection. -/
theorem flattener_output_columns (ds : List DayRecord) (dgs : List Diag)
    (df : DF) (h : extractData ds = (dgs, Except.ok df)) (hpos : 0 < df.nrows) :
    df.colNames = columnsNeeded := by
  rcases extractGo_colNames ds emptyDF [] dgs df (Or.inl rfl) h with rfl | hc
  · simp [emptyDF] at hpos
  · exact hc

/-- Witness for C6 on a concrete one-hour day record. -/
theorem flattener_output_columns_witness :
    (extractOkDF [goodDay "2020-01-03" [hourRec "300" "4"]]).colNames
      = columnsNeeded :=
  flattener_output_columns [goodDay "2020-01-03" [hourRec "300" "4"]] []
    (extractOkDF [goodDay "2020-01-03" [hourRec "300" "4"]]) rfl (by decide)

/-! ## C8: uncaught fetch errors abort the run -/

/-- A fetch outcome that the chunk loop processes without raising. -/
def stepOkResp : FetchResult → Bool
  | .ok data =>
    match (extractData data).2 with
    | .ok _ => true
    | .error _ => false
  | .error _ => false

theorem runChunks_error (city : String) (e : PyErr) (rest : List FetchResult) :
    ∀ (goods : List FetchResult) (acc : DF) (dgs : List Diag),
      (∀ r ∈ goods, stepOkResp r = true) →
      (runChunks city (goods ++ Except.error e :: rest) acc dgs).2
        = Except.error e := by
  intro goods
  induction goods with
  | nil =>
    intro acc dgs _
    rfl
  | cons r t ih =>
    intro acc dgs hg
    have hr := hg r (List.mem_cons_self r t)
    cases r with
    | error e2 => simp [stepOkResp] at hr
    | ok data =>
      rw [show runChunks city ((Except.ok data :: t) ++ Except.error e :: rest) acc dgs
          = (match extractData data with
             | (dgs2, .error e2) => (dgs ++ dgs2, .error e2)
             | (dgs2, .ok blk) => runChunks city (t ++ Except.error e :: rest)
                 (concatRows acc (cityTag city blk)) (dgs ++ dgs2)) from rfl]
      cases hx : extractData data with
      | mk dgs2 res =>
        cases res with
        | error e2 =>
          have hr2 : (match (extractData data).2 with
              | Except.ok _ => true
              | Except.error _ => false) = true := hr
          rw [hx] at hr2
          simp at hr2
        | ok blk =>
          exact ih _ _ (fun x hx2 => hg x (List.mem_cons_of_mem _ hx2))

/-- C8: a network/JSON/key-lookup error raised while fetching any chunk is
not caught: whatever well-processed chunks precede it and whatever would
follow it, the whole retrieval — and the whole driver run — evaluates to
that very error, with no partial table returned and no retry of the failing
chunk. -/
theorem fetch_error_aborts (city : String) (goods : List FetchResult)
    (e : PyErr) (rest : List FetchResult)
    (hg : ∀ r ∈ goods, stepOkResp r = true) :
    (retrieveThisCityR city (goods ++ Except.error e :: rest)).2 = Except.error e
    ∧ ∀ csvDir : Option String,
        (retrieveHistData city csvDir (goods ++ Except.error e :: rest)).2
          = Except.error e := by
  have h1 := runChunks_error city e rest goods emptyDF [] hg
  constructor
  · exact h1
  · intro csvDir
    unfold retrieveHistData
    cases hrc : retrieveThisCityR city (goods ++ Except.error e :: rest) with
    | mk dgs res =>
      have hres : res = Except.error e := by
        have h1x : (retrieveThisCityR city (goods ++ Except.error e :: rest)).2
            = Except.error e := h1
        rw [hrc] at h1x
        exact h1x
      subst hres
      rfl

/-- Witness for C8: one good chunk, then a timeout, then an unread chunk. -/
theorem fetch_error_aborts_witness :
    (retrieveThisCityR "bonn" ([Except.ok [goodDay "2020-01-04" [hourRec "0" "5"]]]
        ++ Except.error (PyErr.urlError "timeout") :: [Except.ok []])).2
      = Except.error (PyErr.urlError "timeout")
    ∧ (retrieveHistData "bonn" (some "out")
        ([Except.ok [goodDay "2020-01-04" [hourRec "0" "5"]]]
          ++ Except.error (PyErr.urlError "timeout") :: [Except.ok []])).2
      = Except.error (PyErr.urlError "timeout") :=
  ⟨(fetch_error_aborts "bonn" [Except.ok [goodDay "2020-01-04" [hourRec "0" "5"]]]
      (PyErr.urlError "timeout") [Except.ok []] (by decide)).1,
   (fetch_error_aborts "bonn" [Except.ok [goodDay "2020-01-04" [hourRec "0" "5"]]]
      (PyErr.urlError "timeout") [Except.ok []] (by decide)).2 (some "out")⟩

/-! ## C10: no `date_time` column means a `KeyError` at `set_index` -/

/-- Does the flattener skip this day (no usable `time` column)? -/
def isSkippedDay (day : DayRecord) : Bool :=
  match flattenDay day with
  | .ok (.skipped _) => true
  | _ => false

/-- A fetch outcome whose day records are all skipped by the flattener. -/
def skippedResp : FetchResult → Bool
  | .ok data => data.all isSkippedDay
  | .error _ => false

theorem extractGo_all_skipped (data : List DayRecord) :
    ∀ dgs0 : List Diag, (∀ d ∈ data, isSkippedDay d = true) →
      ∃ dgs, extractGo data emptyDF dgs0 = (dgs0 ++ dgs, Except.ok emptyDF)
        ∧ Diag.noDateTimeColumn ∈ dgs := by
  induction data with
  | nil =>
    intro dgs0 _
    exact ⟨[Diag.noDateTimeColumn], rfl, by simp⟩
  | cons d t ih =>
    intro dgs0 hsk
    have hd := hsk d (List.mem_cons_self d t)
    unfold isSkippedDay at hd
    cases hf : flattenDay d with
    | error e =>
      rw [hf] at hd
      simp at hd
    | ok dout =>
      cases dout with
      | block b =>
        rw [hf] at hd
        simp at hd
      | skipped dg =>
        obtain ⟨dgs, hgo, hmem⟩ :=
          ih (dgs0 ++ [dg]) (fun x hx => hsk x (List.mem_cons_of_mem _ hx))
        refine ⟨[dg] ++ dgs, ?_, by simp [hmem]⟩
        have hstep : extractGo (d :: t) emptyDF dgs0
            = extractGo t emptyDF (dgs0 ++ [dg]) := by
          rw [show extractGo (d :: t) emptyDF dgs0 = (match flattenDay d with
              | .error e => (dgs0, .error e)
              | .ok (.skipped dg2) => extractGo t emptyDF (dgs0 ++ [dg2])
              | .ok (.block blkx) => extractGo t (concatRows emptyDF blkx) dgs0)
            from rfl]
          rw [hf]
        rw [hstep, hgo, List.append_assoc]

theorem runChunks_all_skipped (city : String) (resps : List FetchResult) :
    ∀ (acc : DF) (dgs0 : List Diag),
      (∀ r ∈ resps, skippedResp r = true) →
      acc.hasCol "date_time" = false →
      ∃ dgs acc2, runChunks city resps acc dgs0 = (dgs0 ++ dgs, Except.ok acc2)
        ∧ acc2.hasCol "date_time" = false
        ∧ (resps ≠ [] → Diag.noDateTimeColumn ∈ dgs) := by
  induction resps with
  | nil =>
    intro acc dgs0 _ hacc
    refine ⟨[], acc, ?_, hacc, by simp⟩
    rw [List.append_nil]
    rfl
  | cons r t ih =>
    intro acc dgs0 hsk hacc
    have hr := hsk r (List.mem_cons_self r t)
    cases r with
    | error e => simp [skippedResp] at hr
    | ok data =>
      unfold skippedResp at hr
      rw [List.all_eq_true] at hr
      obtain ⟨dgsE, hgoE, hmemE⟩ := extractGo_all_skipped data [] hr
      have hext : extractData data = (dgsE, Except.ok emptyDF) := by
        unfold extractData
        rw [hgoE, List.nil_append]
      have hstep : runChunks city (Except.ok data :: t) acc dgs0
          = runChunks city t (concatRows acc (cityTag city emptyDF))
              (dgs0 ++ dgsE) := by
        rw [show runChunks city (Except.ok data :: t) acc dgs0
            = (match extractData data with
               | (dgs2, .error e2) => (dgs0 ++ dgs2, .error e2)
               | (dgs2, .ok blk) => runChunks city t
                   (concatRows acc (cityTag city blk)) (dgs0 ++ dgs2)) from rfl]
        rw [hext]
      have hacc2 : (concatRows acc (cityTag city emptyDF)).hasCol "date_time"
          = false := by
        rw [hasCol_concatRows, hacc]
        have hct : (cityTag city emptyDF).hasCol "date_time" = false := by
          unfold cityTag
          rw [hasCol_setCol]
          rfl
        rw [hct]
        rfl
      obtain ⟨dgsR, acc2, hrun, hacc3, _⟩ :=
        ih (concatRows acc (cityTag city emptyDF)) (dgs0 ++ dgsE)
          (fun x hx => hsk x (List.mem_cons_of_mem _ hx)) hacc2
      refine ⟨dgsE ++ dgsR, acc2, ?_, hacc3, fun _ => by simp [hmemE]⟩
      rw [hstep, hrun, List.append_assoc]

/-- C10: when every day record of every chunk is skipped (or the provider
returns no day records at all), no `date_time` column is ever produced, and
the driver raises a `KeyError` at `set_index('date_time')` instead of
returning an empty table — even though the missing-column diagnostic was
printed beforehand. -/
theorem all_skipped_keyerror (city : String) (csvDir : Option String)
    (resps : List FetchResult) (hne : resps ≠ [])
    (hsk : ∀ r ∈ resps, skippedResp r = true) :
    (retrieveHistData city csvDir resps).2
        = Except.error (PyErr.keyError "date_time")
    ∧ Diag.noDateTimeColumn ∈ (retrieveHistData city csvDir resps).1 := by
  obtain ⟨dgs, acc2, hrun, hacc, hmem⟩ :=
    runChunks_all_skipped city resps emptyDF [] hsk rfl
  have hrc : retrieveThisCityR city resps = (dgs, Except.ok acc2) := by
    unfold retrieveThisCityR
    rw [hrun, List.nil_append]
  have hsi : setIndexDT acc2 = Except.error (PyErr.keyError "date_time") := by
    unfold setIndexDT
    rw [if_neg (by rw [hacc]; simp)]
  have hRHD : retrieveHistData city csvDir resps
      = (dgs, Except.error (PyErr.keyError "date_time")) := by
    unfold retrieveHistData
    rw [hrc]
    show (match setIndexDT acc2 with
          | .error e => (dgs, .error e)
          | .ok tbl => (dgs, .ok (tbl, csvDir.map
              (fun dir => (dir ++ "/" ++ city ++ ".csv", toCsvLines tbl)))))
        = (dgs, Except.error (PyErr.keyError "date_time"))
    rw [hsi]
  rw [hRHD]
  exact ⟨rfl, hmem hne⟩

/-- Witness for C10: one chunk whose day list is empty. -/
theorem all_skipped_keyerror_witness :
    (retrieveHistData "bonn" none [Except.ok []]).2
        = Except.error (PyErr.keyError "date_time")
    ∧ Diag.noDateTimeColumn ∈ (retrieveHistData "bonn" none [Except.ok []]).1 :=
  all_skipped_keyerror "bonn" none [Except.ok []] (by simp) (by decide)

/-! ## C7: index setting and persistence -/

theorem hasCol_setIndex_body (df : DF) :
    (DF.mk df.nrows (df.cols.filter (fun c => ¬ c.1 == "date_time"))).hasCol
      "date_time" = false := by
  unfold DF.hasCol
  dsimp only
  rw [List.any_eq_false]
  intro x hx
  have hmf := List.mem_filter.mp hx
  simp only [decide_eq_true_eq] at hmf
  exact hmf.2

/-- C7: the driver always returns the same table whether or not an output
directory is supplied; the timestamp column becomes the index and is removed
from the columns; and the persisted file — named `city.csv` in the supplied
directory — is one header line (index column first) plus exactly one line
per table row, every line with the same column count as the table. -/
theorem hist_data_spec (city : String) (dir : String) (resps : List FetchResult) :
    ((retrieveHistData city none resps).2.map Prod.fst
      = (retrieveHistData city (some dir) resps).2.map Prod.fst)
    ∧ ∀ (tbl : Table) (out : Option (String × List (List String))),
        (retrieveHistData city (some dir) resps).2 = Except.ok (tbl, out) →
        tbl.body.hasCol "date_time" = false
        ∧ (∀ df, (retrieveThisCityR city resps).2 = Except.ok df →
            tbl.index = df.getCol "date_time" ∧ tbl.body.nrows = df.nrows)
        ∧ out = some (dir ++ "/" ++ city ++ ".csv", toCsvLines tbl)
        ∧ (toCsvLines tbl).length = tbl.body.nrows + 1
        ∧ (toCsvLines tbl).head? = some ("date_time" :: tbl.body.colNames)
        ∧ (∀ row ∈ toCsvLines tbl, row.length = tbl.body.colNames.length + 1) := by
  have hcsvlen : ∀ t : Table, (toCsvLines t).length = t.body.nrows + 1 := by
    intro t
    unfold toCsvLines
    simp
  have hcsvhead : ∀ t : Table,
      (toCsvLines t).head? = some ("date_time" :: t.body.colNames) :=
    fun t => rfl
  have hcsvrow : ∀ (t : Table), ∀ row ∈ toCsvLines t,
      row.length = t.body.colNames.length + 1 := by
    intro t row hrow
    unfold toCsvLines at hrow
    rw [List.mem_cons] at hrow
    rcases hrow with rfl | hrow
    · simp [DF.colNames]
    · obtain ⟨i, _, rfl⟩ := List.mem_map.mp hrow
      simp [DF.colNames]
  cases hrc : retrieveThisCityR city resps with
  | mk dgs res =>
    cases res with
    | error e =>
      have hL : retrieveHistData city none resps = (dgs, Except.error e) := by
        unfold retrieveHistData
        rw [hrc]
      have hR : retrieveHistData city (some dir) resps = (dgs, Except.error e) := by
        unfold retrieveHistData
        rw [hrc]
      constructor
      · rw [hL, hR]
      · intro tbl out h
        rw [hR] at h
        exact Except.noConfusion h
    | ok df =>
      cases hsi : setIndexDT df with
      | error e =>
        have hL : retrieveHistData city none resps = (dgs, Except.error e) := by
          unfold retrieveHistData
          rw [hrc]
          show (match setIndexDT df with
                | Except.error e => (dgs, Except.error e)
                | Except.ok tbl => (dgs, Except.ok (tbl, Option.map
                    (fun dir2 => (dir2 ++ "/" ++ city ++ ".csv", toCsvLines tbl))
                    none))) = _
          rw [hsi]
        have hR : retrieveHistData city (some dir) resps = (dgs, Except.error e) := by
          unfold retrieveHistData
          rw [hrc]
          show (match setIndexDT df with
                | Except.error e => (dgs, Except.error e)
                | Except.ok tbl => (dgs, Except.ok (tbl, Option.map
                    (fun dir2 => (dir2 ++ "/" ++ city ++ ".csv", toCsvLines tbl))
                    (some dir)))) = _
          rw [hsi]
        constructor
        · rw [hL, hR]
        · intro tbl out h
          rw [hR] at h
          exact Except.noConfusion h
      | ok tbl0 =>
        have hL : retrieveHistData city none resps
            = (dgs, Except.ok (tbl0, none)) := by
          unfold retrieveHistData
          rw [hrc]
          show (match setIndexDT df with
                | Except.error e => (dgs, Except.error e)
                | Except.ok tbl => (dgs, Except.ok (tbl, Option.map
                    (fun dir2 => (dir2 ++ "/" ++ city ++ ".csv", toCsvLines tbl))
                    none))) = _
          rw [hsi]
          rfl
        have hR : retrieveHistData city (some dir) resps
            = (dgs, Except.ok (tbl0,
                some (dir ++ "/" ++ city ++ ".csv", toCsvLines tbl0))) := by
          unfold retrieveHistData
          rw [hrc]
          show (match setIndexDT df with
                | Except.error e => (dgs, Except.error e)
                | Except.ok tbl => (dgs, Except.ok (tbl, Option.map
                    (fun dir2 => (dir2 ++ "/" ++ city ++ ".csv", toCsvLines tbl))
                    (some dir)))) = _
          rw [hsi]
          rfl
        have htbl0 : tbl0 = ⟨df.getCol "date_time",
            DF.mk df.nrows (df.cols.filter (fun c => ¬ c.1 == "date_time"))⟩ := by
          unfold setIndexDT at hsi
          by_cases hdt : df.hasCol "date_time" = true
          · rw [if_pos hdt] at hsi
            injection hsi with h2
            exact h2.symm
          · rw [if_neg hdt] at hsi
            exact Except.noConfusion hsi
        constructor
        · rw [hL, hR]
          rfl
        · intro tbl out h
          rw [hR] at h
          injection h with h1
          injection h1 with hA hB
          subst hA
          subst hB
          refine ⟨?_, ?_, rfl, hcsvlen tbl0, hcsvhead tbl0, hcsvrow tbl0⟩
          · rw [htbl0]
            exact hasCol_setIndex_body df
          · intro df2 hdf2
            have hdf2x : (Except.ok df : Except PyErr DF) = Except.ok df2 := hdf2
            injection hdf2x with h3
            subst h3
            rw [htbl0]
            exact ⟨rfl, rfl⟩

/-- A concrete single-chunk response list for the C7 witness. -/
def c7Resps : List FetchResult :=
  [Except.ok [goodDay "2020-01-05" [hourRec "0" "5"]]]

/-- The table returned by the driver on `c7Resps`. -/
def c7Tbl : Table :=
  match (retrieveHistData "bonn" (some "out") c7Resps).2 with
  | .ok (t, _) => t
  | .error _ => ⟨[], emptyDF⟩

/-- The persistence outcome of the driver on `c7Resps`. -/
def c7Out : Option (String × List (List String)) :=
  match (retrieveHistData "bonn" (some "out") c7Resps).2 with
  | .ok (_, o) => o
  | .error _ => none

/-- Witness for C7 on a concrete one-day run. -/
theorem hist_data_spec_witness :
    ((retrieveHistData "bonn" none c7Resps).2.map Prod.fst
      = (retrieveHistData "bonn" (some "out") c7Resps).2.map Prod.fst)
    ∧ c7Tbl.body.hasCol "date_time" = false
    ∧ (∀ df, (retrieveThisCityR "bonn" c7Resps).2 = Except.ok df →
        c7Tbl.index = df.getCol "date_time" ∧ c7Tbl.body.nrows = df.nrows)
    ∧ c7Out = some ("out" ++ "/" ++ "bonn" ++ ".csv", toCsvLines c7Tbl)
    ∧ (toCsvLines c7Tbl).length = c7Tbl.body.nrows + 1
    ∧ (toCsvLines c7Tbl).head? = some ("date_time" :: c7Tbl.body.colNames)
    ∧ (∀ row ∈ toCsvLines c7Tbl, row.length = c7Tbl.body.colNames.length + 1) :=
  ⟨(hist_data_spec "bonn" "out" c7Resps).1,
   (hist_data_spec "bonn" "out" c7Resps).2 c7Tbl c7Out rfl⟩
